import Mathlib

/-!
Verification development for the Tam-vonku travel dashboard
(`app.py`, `flights.py`).

The data-transformation core of the application is embedded shallowly:
a pandas `DataFrame` becomes a list of association-list rows together
with the list of column names, pandas cells become the `Cell` type
(`na` models `NaN`/`NaT`), numeric values are modelled by `ℚ`
(binary-float rounding is idealised by exact rationals), dates are
modelled by their civil day number (an integer), and operations that
can raise a Python `KeyError` return `Except String`.
-/

/-- A pandas cell: missing (`NaN`/`NaT`), a float, a string, or a
datetime (represented by its civil day number). -/
inductive Cell where
  | na : Cell
  | num : ℚ → Cell
  | str : String → Cell
  | date : ℤ → Cell
deriving DecidableEq, Repr

/-- One row of a frame: column name ↦ cell. -/
abbrev Row := List (String × Cell)

/-- A data frame: the column names plus the rows. -/
structure DF where
  cols : List String
  rows : List Row
deriving DecidableEq, Repr

/-- Reading a cell of a row; a name that the row does not carry reads as
missing (all accesses in the embedding are guarded by column-presence
checks, mirroring `col in df.columns`). -/
def Row.get (r : Row) (c : String) : Cell :=
  match r.lookup c with
  | some v => v
  | none => Cell.na

/-- `df.empty`: true when either axis has length zero. -/
def DF.isEmpty (df : DF) : Bool :=
  df.rows.isEmpty || df.cols.isEmpty

/-- The values of column `c` (the embedding of `df[c]` at call sites
where the column is known to exist). -/
def DF.colVals (df : DF) (c : String) : List Cell :=
  df.rows.map (fun r => r.get c)

/-- Is the cell the missing marker? -/
def Cell.isNa : Cell → Bool
  | Cell.na => true
  | _ => false

deriving instance DecidableEq for Except

/- ### A kernel-computable interface to `ℚ`

The embedded program computes with rational values.  Mathlib's `ℚ`
operations normalize through `Nat.gcd`, which is defined by well-founded
recursion and does not reduce inside the kernel, so concrete runs of the
embedding could not be checked by `decide`.  The constructors below
build the same reduced rationals through a fuel-driven gcd that the
kernel can evaluate; the `_eq` lemmas identify them with the ordinary
field operations, so proofs still reason algebraically. -/

/-- Euclid's algorithm with explicit fuel (structural recursion, so the
kernel reduces it). -/
def gcdFuel : ℕ → ℕ → ℕ → ℕ
  | 0, _, n => n
  | _ + 1, 0, n => n
  | f + 1, m + 1, n => gcdFuel f (n % (m + 1)) (m + 1)

/-- Kernel-computable gcd. -/
def ngcd (m n : ℕ) : ℕ := gcdFuel (m + 1) m n

theorem gcdFuel_eq (fuel : ℕ) :
    ∀ m n : ℕ, m < fuel → gcdFuel fuel m n = Nat.gcd m n := by
  induction fuel with
  | zero => intro m n h; omega
  | succ f ih =>
      intro m n h
      match m with
      | 0 => simp [gcdFuel, Nat.gcd_zero_left]
      | k + 1 =>
          have hm : n % (k + 1) < k + 1 := Nat.mod_lt _ (by omega)
          rw [gcdFuel, ih (n % (k + 1)) (k + 1) (by omega), Nat.gcd_succ]

theorem ngcd_eq (m n : ℕ) : ngcd m n = Nat.gcd m n :=
  gcdFuel_eq (m + 1) m n (Nat.lt_succ_self m)

/-- The reduced rational `n / d` (`0` when `d = 0`), built so that the
kernel can evaluate it. -/
def qmk (n d : ℤ) : ℚ :=
  if hd : d = 0 then 0
  else
    let n1 : ℤ := if d < 0 then -n else n
    let dn : ℕ := d.natAbs
    let g : ℕ := ngcd n1.natAbs dn
    Rat.mk' ((if n1 < 0 then (-1 : ℤ) else 1) * ((n1.natAbs / g : ℕ) : ℤ))
      (dn / g)
      (by
        have hg : g = Nat.gcd n1.natAbs dn := ngcd_eq _ _
        have hdn : 0 < dn := Int.natAbs_pos.mpr hd
        have : 0 < dn / g := by
          rw [hg]
          exact Nat.div_gcd_pos_of_pos_right _ hdn
        omega)
      (by
        have hg : g = Nat.gcd n1.natAbs dn := ngcd_eq _ _
        have hdn : 0 < dn := Int.natAbs_pos.mpr hd
        have hgpos : 0 < g := by rw [hg]; exact Nat.gcd_pos_of_pos_right _ hdn
        have habs : (((if n1 < 0 then (-1 : ℤ) else 1) *
            ((n1.natAbs / g : ℕ) : ℤ)).natAbs) = n1.natAbs / g := by
          rw [Int.natAbs_mul]
          by_cases h : n1 < 0
          · rw [if_pos h]
            simp only [Int.natAbs_neg, Int.natAbs_one, one_mul, Int.natAbs_ofNat]
          · rw [if_neg h]
            simp only [Int.natAbs_one, one_mul, Int.natAbs_ofNat]
        rw [habs, hg]
        exact Nat.coprime_div_gcd_div_gcd (hg ▸ hgpos))

theorem sign_mul_natAbs (n : ℤ) :
    (if n < 0 then (-1 : ℤ) else 1) * (n.natAbs : ℤ) = n := by
  by_cases h : n < 0
  · rw [if_pos h]; omega
  · rw [if_neg h]; omega

theorem qmk_eq (n d : ℤ) : qmk n d = (n : ℚ) / (d : ℚ) := by
  rw [qmk]
  by_cases hd : d = 0
  · simp [hd]
  · rw [dif_neg hd]
    set n1 : ℤ := if d < 0 then -n else n with hn1
    set dn : ℕ := d.natAbs with hdn
    set g : ℕ := ngcd n1.natAbs dn with hgdef
    have hg : g = Nat.gcd n1.natAbs dn := ngcd_eq _ _
    have hdnpos : 0 < dn := Int.natAbs_pos.mpr hd
    have hgpos : 0 < g := by rw [hg]; exact Nat.gcd_pos_of_pos_right _ hdnpos
    have hgn : g ∣ n1.natAbs := by rw [hg]; exact Nat.gcd_dvd_left _ _
    have hgd : g ∣ dn := by rw [hg]; exact Nat.gcd_dvd_right _ _
    rw [Rat.mk'_eq_divInt, Rat.divInt_eq_div]
    have hQd : (d : ℚ) ≠ 0 := Int.cast_ne_zero.mpr hd
    have hdgpos : 0 < dn / g := Nat.div_pos (Nat.le_of_dvd hdnpos hgd) hgpos
    have hden0 : (((dn / g : ℕ) : ℤ) : ℚ) ≠ 0 := by
      exact_mod_cast Nat.cast_ne_zero.mpr hdgpos.ne'
    rw [div_eq_div_iff hden0 hQd]
    obtain ⟨a, ha⟩ := hgn
    obtain ⟨b, hb⟩ := hgd
    have ha' : n1.natAbs / g = a := by
      rw [ha]; exact Nat.mul_div_cancel_left a hgpos
    have hb' : dn / g = b := by
      rw [hb]; exact Nat.mul_div_cancel_left b hgpos
    have key : ((if n1 < 0 then (-1 : ℤ) else 1) * ((a : ℕ) : ℤ)) * d
        = n * ((b : ℕ) : ℤ) := by
      have h1 : (if n1 < 0 then (-1 : ℤ) else 1) * (n1.natAbs : ℤ) = n1 :=
        sign_mul_natAbs n1
      have h2 : (n1.natAbs : ℤ) = (g : ℤ) * (a : ℤ) := by exact_mod_cast ha
      have hb2 : ((dn : ℕ) : ℤ) = (g : ℤ) * (b : ℤ) := by exact_mod_cast hb
      have hnd : n1 * d = n * (dn : ℤ) := by
        by_cases hdneg : d < 0
        · have e1 : n1 = -n := by rw [hn1, if_pos hdneg]
          have e2 : (dn : ℤ) = -d := by rw [hdn]; omega
          rw [e1, e2]; ring
        · have e1 : n1 = n := by rw [hn1, if_neg hdneg]
          have e2 : (dn : ℤ) = d := by rw [hdn]; omega
          rw [e1, e2]
      have hcancel : (((if n1 < 0 then (-1 : ℤ) else 1) * (a : ℤ)) * d) * (g : ℤ)
          = (n * (b : ℤ)) * (g : ℤ) := by
        calc (((if n1 < 0 then (-1 : ℤ) else 1) * (a : ℤ)) * d) * (g : ℤ)
            = ((if n1 < 0 then (-1 : ℤ) else 1) * ((g : ℤ) * (a : ℤ))) * d := by
              ring
          _ = ((if n1 < 0 then (-1 : ℤ) else 1) * (n1.natAbs : ℤ)) * d := by
              rw [h2]
          _ = n1 * d := by rw [h1]
          _ = n * (dn : ℤ) := hnd
          _ = n * ((g : ℤ) * (b : ℤ)) := by rw [hb2]
          _ = (n * (b : ℤ)) * (g : ℤ) := by ring
      exact mul_right_cancel₀ (by exact_mod_cast hgpos.ne') hcancel
    rw [ha', hb']
    exact_mod_cast key

theorem qmk_divInt (n d : ℤ) : qmk n d = Rat.divInt n d := by
  rw [qmk_eq, Rat.divInt_eq_div]

/-- Kernel-computable rational addition. -/
def qadd (a b : ℚ) : ℚ :=
  qmk (a.num * b.den + a.den * b.num) ((a.den : ℤ) * (b.den : ℤ))

theorem qadd_eq (a b : ℚ) : qadd a b = a + b := by
  rw [qadd, qmk_divInt, ← Rat.add_num_den]

/-- Kernel-computable rational multiplication. -/
def qmul (a b : ℚ) : ℚ :=
  qmk (a.num * b.num) (((a.den * b.den : ℕ)) : ℤ)

theorem qmul_eq (a b : ℚ) : qmul a b = a * b := by
  rw [qmul, qmk_divInt, ← Rat.mkRat_eq_divInt, ← Rat.mul_eq_mkRat]

/-- Kernel-computable rational division (`a / 0 = 0` as in `ℚ`). -/
def qdiv (a b : ℚ) : ℚ :=
  qmk (a.num * b.den) ((a.den : ℤ) * b.num)

theorem qdiv_eq (a b : ℚ) : qdiv a b = a / b := by
  rw [qdiv, qmk_divInt, ← Rat.div_def']

/-- Kernel-computable sum of a list of rationals. -/
def qsum : List ℚ → ℚ
  | [] => 0
  | a :: l => qadd a (qsum l)

theorem qsum_eq (l : List ℚ) : qsum l = l.sum := by
  induction l with
  | nil => rfl
  | cons a l ih => rw [qsum, qadd_eq, ih, List.sum_cons]

/-- Kernel-computable floor of a rational. -/
def qfloor (q : ℚ) : ℤ := q.num / q.den

theorem qfloor_eq (q : ℚ) : qfloor q = ⌊q⌋ := Rat.floor_def.symm

/- ### Numeric parsing (the locale normalizer of `load_data` /
`load_transport_data`) -/

/-- Numeric value of a list of ASCII digit characters, most significant
first. -/
def natOfDigitChars (cs : List Char) : ℕ :=
  cs.foldl (fun a c => 10 * a + (c.toNat - 48)) 0

/-- The digits-and-dot part of a decimal literal, after the optional
sign. -/
def parseAfterSign (sign : ℤ) (body : List Char) : Option ℚ :=
  let intPart := body.takeWhile Char.isDigit
  let rest := body.dropWhile Char.isDigit
  match rest with
  | [] =>
      if intPart.isEmpty then none
      else some (qmk (sign * (natOfDigitChars intPart : ℤ)) 1)
  | '.' :: frac =>
      if frac.all Char.isDigit ∧ (intPart ≠ [] ∨ frac ≠ []) then
        some (qmk (sign * (natOfDigitChars (intPart ++ frac) : ℤ))
          ((10 ^ frac.length : ℕ) : ℤ))
      else none
  | _ => none

/-- Parse an optionally signed plain decimal literal (`123`, `-4.5`,
`1.`, `.5`), the shapes `float(...)` accepts for the loader's inputs.
Exponent forms and infinities do not occur in the data and are not
modelled. -/
def parseDecimal (cs : List Char) : Option ℚ :=
  match cs with
  | [] => parseAfterSign 1 []
  | c :: rest =>
      if c = '-' then parseAfterSign (-1) rest
      else if c = '+' then parseAfterSign 1 rest
      else parseAfterSign 1 (c :: rest)

/-- Python `float(s)`: `"nan"` (any case, optionally signed) yields the
missing marker, a plain decimal literal yields its value, anything else
raises `ValueError` (modelled by `Except.error`). -/
def pyFloat (s : String) : Except String Cell :=
  let low := s.data.map Char.toLower
  if low = ['n', 'a', 'n'] ∨ low = ['+', 'n', 'a', 'n'] ∨
      low = ['-', 'n', 'a', 'n'] then
    Except.ok Cell.na
  else
    match parseDecimal s.data with
    | some q => Except.ok (Cell.num q)
    | none => Except.error s

/-- The per-field composite of the loaders' cost-column handling:
`astype(str).str.replace(' ', '').str.replace(',', '.').astype(float)`.
Removing every space and turning each comma into a dot is performed on
the character list; an empty CSV field was read as `NaN` and stringifies
to `"nan"`, which `float` maps back to `NaN`. -/
def normalizeCostField (s : String) : Except String Cell :=
  if s = "" then Except.ok Cell.na
  else
    pyFloat ⟨(s.data.filter (fun c => c ≠ ' ')).map
      (fun c => if c = ',' then '.' else c)⟩

/- ### Date parsing (`pd.to_datetime(..., format='%d.%m.%Y',
errors='coerce')`) -/

/-- Is the year a Gregorian leap year? -/
def isLeap (y : ℕ) : Bool :=
  (y % 4 = 0 && y % 100 ≠ 0) || y % 400 = 0

/-- Days in a month of a given year. -/
def daysInMonth (y m : ℕ) : ℕ :=
  if m = 2 then (if isLeap y then 29 else 28)
  else if m = 4 ∨ m = 6 ∨ m = 9 ∨ m = 11 then 30
  else 31

/-- Civil day number of a Gregorian date (days since 1970-01-01,
Howard Hinnant's `days_from_civil`). -/
def daysFromCivil (y m d : ℤ) : ℤ :=
  let y2 := if m ≤ 2 then y - 1 else y
  let era := (if y2 ≥ 0 then y2 else y2 - 399) / 400
  let yoe := y2 - era * 400
  let mp := (m + 9) % 12
  let doy := (153 * mp + 2) / 5 + d - 1
  let doe := yoe * 365 + yoe / 4 - yoe / 100 + doy
  era * 146097 + doe - 719468

/-- Split a character list on a separator character. -/
def splitOnChar (sep : Char) (cs : List Char) : List (List Char) :=
  match cs with
  | [] => [[]]
  | c :: rest =>
      let parts := splitOnChar sep rest
      if c = sep then [] :: parts
      else
        match parts with
        | [] => [[c]]
        | p :: ps => (c :: p) :: ps

/-- A nonempty all-digit chunk, as a number. -/
def parseNatChunk (cs : List Char) : Option ℕ :=
  if cs ≠ [] ∧ cs.all Char.isDigit then some (natOfDigitChars cs)
  else none

/-- Parse a `DD.MM.YYYY` date string to its civil day number, `none` on
any malformed or non-existent date (the `errors='coerce'` path). -/
def parseDMY (s : String) : Option ℤ := do
  match splitOnChar '.' s.data with
  | [ds, ms, ys] =>
      let d ← parseNatChunk ds
      let m ← parseNatChunk ms
      let y ← parseNatChunk ys
      if 1 ≤ m ∧ m ≤ 12 ∧ 1 ≤ d ∧ d ≤ daysInMonth y m then
        some (daysFromCivil (y : ℤ) (m : ℤ) (d : ℤ))
      else none
  | _ => none

/- ### The dataset loaders (`load_data` in `app.py`,
`load_transport_data` in `flights.py`), file reading aside: the input is
the raw text table read from the CSV. -/

/-- The raw text table produced by reading the CSV file: column names
and, per row, the raw text of each field. -/
structure RawTable where
  cols : List String
  rows : List (List (String × String))
deriving DecidableEq, Repr

/-- `read_csv` on one field: an empty field is missing, anything else is
kept as text.  (Whole-column numeric dtype inference is not modelled
separately: composed with `astype(str)` it is value-preserving, see
`normalizeCostField`.) -/
def readField (s : String) : Cell :=
  if s = "" then Cell.na else Cell.str s

/-- `astype(str) … astype(float)` on one already-loaded cell.  `str` of
the missing marker is `"nan"`, which `float` maps back to missing; a
float cell stringifies and reparses to itself. -/
def normalizeCostCell (c : Cell) : Except String Cell :=
  match c with
  | Cell.na => Except.ok Cell.na
  | Cell.str s => normalizeCostField s
  | Cell.num q => Except.ok (Cell.num q)
  | Cell.date d => Except.error (toString d)

/-- Rewrite the cell under column `c` through `f`, leaving the rest of
the row alone. -/
def Row.mapCellAt (r : Row) (c : String) (f : Cell → Cell) : Row :=
  r.map (fun p => if p.1 = c then (p.1, f p.2) else p)

/-- Fallible map over a list, aborting at the first failure (the
effect of a raised exception inside a whole-column conversion). -/
def mapE (f : α → Except String β) : List α → Except String (List β)
  | [] => Except.ok []
  | a :: l =>
      match f a with
      | Except.error e => Except.error e
      | Except.ok b =>
          match mapE f l with
          | Except.error e => Except.error e
          | Except.ok bs => Except.ok (b :: bs)

/-- Apply the fallible cost normalizer to the named column of a row; the
first failing field aborts (the `ValueError` of `astype(float)`). -/
def normalizeColRow (name : String) (r : Row) : Except String Row :=
  mapE (fun p =>
    if p.1 = name then
      match normalizeCostCell p.2 with
      | Except.error e => Except.error e
      | Except.ok v => Except.ok (p.1, v)
    else Except.ok p) r

/-- `pd.to_datetime(col, format='%d.%m.%Y', errors='coerce')` on one
cell: parseable date strings become dates, anything else becomes the
missing marker (datetimes stay). -/
def toDatetimeCell (c : Cell) : Cell :=
  match c with
  | Cell.str s =>
      match parseDMY s with
      | some d => Cell.date d
      | none => Cell.na
  | Cell.date d => Cell.date d
  | _ => Cell.na

/-- Python `str()` of a cell (used by the `destination` synthesis; the
float case is shown via the rational printer, a display-level
idealisation). -/
def cellToStr (c : Cell) : String :=
  match c with
  | Cell.na => "nan"
  | Cell.str s => s
  | Cell.num q => toString q
  | Cell.date d => toString d

/-- `load_data` of `app.py`, after the file has been read into a raw
text table: normalize the `total price of stay` column (a failure there
is the caught exception path, returning the empty frame), parse the two
date columns, and synthesize the `destination` column when both
`country` and `location` exist. -/
def load_data (raw : RawTable) : DF :=
  let base : List Row :=
    raw.rows.map (fun r => r.map (fun p => (p.1, readField p.2)))
  let step1 : Except String (List Row) :=
    if "total price of stay" ∈ raw.cols then
      mapE (normalizeColRow "total price of stay") base
    else Except.ok base
  match step1 with
  | Except.error _ => DF.mk [] []
  | Except.ok rows1 =>
      let rows2 := ["check in", "check out"].foldl
        (fun rs c =>
          if c ∈ raw.cols then rs.map (fun r => r.mapCellAt c toDatetimeCell)
          else rs) rows1
      if "country" ∈ raw.cols ∧ "location" ∈ raw.cols then
        { cols := raw.cols ++ ["destination"],
          rows := rows2.map (fun r => r ++ [("destination",
            Cell.str (cellToStr (r.get "location") ++ ", " ++
              cellToStr (r.get "country")))]) }
      else { cols := raw.cols, rows := rows2 }

/-- `load_transport_data` of `flights.py`: normalize the per-person
price column the same way; on failure the caught exception path returns
the empty frame.  (The auto-format `to_datetime` on the `date` column is
not exercised by any claim and is modelled by the same coercion.) -/
def load_transport_data (raw : RawTable) : DF :=
  let base : List Row :=
    raw.rows.map (fun r => r.map (fun p => (p.1, readField p.2)))
  let step1 : Except String (List Row) :=
    if "price per person ( EUR )" ∈ raw.cols then
      mapE (normalizeColRow "price per person ( EUR )") base
    else Except.ok base
  match step1 with
  | Except.error _ => DF.mk [] []
  | Except.ok rows1 =>
      if "date" ∈ raw.cols then
        { cols := raw.cols,
          rows := rows1.map (fun r => r.mapCellAt "date" toDatetimeCell) }
      else { cols := raw.cols, rows := rows1 }

/- ### Summary metrics (`create_summary_metrics` in `app.py`) -/

/-- A value of the metrics mapping: trip-day counts and distinct counts
are integers, cost sums are rationals, the formatted
`average per person per night` string `'€ {avg}'` is modelled by `euro`
carrying the rounded amount, and `top_destination` carries a cell. -/
inductive MetricVal where
  | int : ℤ → MetricVal
  | rat : ℚ → MetricVal
  | str : String → MetricVal
  | euro : ℚ → MetricVal
  | cell : Cell → MetricVal
deriving DecidableEq, Repr

/-- The metrics dictionary, in insertion order. -/
abbrev Metrics := List (String × MetricVal)

/-- Round to the nearest integer, ties to even (the rounding of Python's
`round` and pandas' `round`, idealised over exact rationals). -/
def roundHalfEven (q : ℚ) : ℤ :=
  let f := qfloor q
  let r := qadd q (qmk (-f) 1)
  if r < qmk 1 2 then f
  else if qmk 1 2 < r then f + 1
  else if f % 2 = 0 then f else f + 1

/-- `round(x, 2)`. -/
def round2 (q : ℚ) : ℚ := qmk (roundHalfEven (qmul q (qmk 100 1))) 100

/-- The numeric content of a cell, when it has one. -/
def numOfCell : Cell → Option ℚ
  | Cell.num q => some q
  | _ => none

/-- `Series.sum()` over a numeric column: missing entries are skipped.
(Non-numeric cells do not occur in the cost columns the claims range
over.) -/
def cellSum (xs : List Cell) : ℚ :=
  qsum (xs.filterMap numOfCell)

/-- `Series.nunique()`: the number of distinct non-missing values. -/
def nunique (xs : List Cell) : ℕ :=
  ((xs.filter (fun c => !c.isNa)).dedup).length

/-- First candidate column name present in the frame (the repeated
`for col in …: if col in df.columns` scans). -/
def firstPresent (df : DF) (cands : List String) : Option String :=
  cands.find? (fun c => decide (c ∈ df.cols))

/-- The ordered cost-column candidates. -/
def costCandidates : List String :=
  ["total price of stay", "cost", "price", "amount", "total_cost", "expense"]

/-- The ordered destination-column candidates. -/
def destCandidates : List String :=
  ["destination", "city", "country", "location"]

/-- The ordered platform/type-column candidates. -/
def typeCandidates : List String :=
  ["platform", "travel_type", "type", "category", "mode"]

/-- The check-in/check-out pair of a row, when both are dates (the
`dropna(subset=['check in', 'check out'])` filter on the
datetime-parsed columns). -/
def bothDates (r : Row) : Option (ℤ × ℤ) :=
  match r.get "check in", r.get "check out" with
  | Cell.date a, Cell.date b => some (a, b)
  | _, _ => none

/-- The `days_on_road` block: when both date columns exist and some row
has both dates, `(max(check out) - min(check in)).days + 1`. -/
def days_on_road (df : DF) : Option ℤ :=
  if "check in" ∈ df.cols ∧ "check out" ∈ df.cols then
    match df.rows.filterMap bothDates with
    | [] => none
    | p :: ps =>
        let firstDay := ps.foldl (fun m q => min m q.1) p.1
        let lastDay := ps.foldl (fun m q => max m q.2) p.2
        some (lastDay - firstDay + 1)
  else none

/-- String lowercasing (`str.lower()` of pandas). -/
def strLower (s : String) : String := ⟨s.data.map Char.toLower⟩

/-- Does the platform cell equal `'workaway'` case-insensitively?
(`.str.lower() == 'workaway'`; non-strings lowercase to missing and do
not match). -/
def isWorkawayCell (c : Cell) : Bool :=
  match c with
  | Cell.str s => strLower s == "workaway"
  | _ => false

/-- `value_counts().index[0]`: the most frequent non-missing value,
ties to the earliest first occurrence; `'N/A'` when no value remains. -/
def topDest (vals : List Cell) : MetricVal :=
  let vs := vals.filter (fun c => !c.isNa)
  match vs with
  | [] => MetricVal.str "N/A"
  | v :: _ =>
      MetricVal.cell (vs.foldl
        (fun best x => if vs.count x > vs.count best then x else best) v)

/-- The destination and platform metric blocks, appended to the metrics
built so far (these two blocks cannot raise). -/
def tailMetrics (df : DF) (m : Metrics) : Metrics :=
  let m5 :=
    match firstPresent df destCandidates with
    | some c =>
        m ++ [("unique_destinations", MetricVal.int (nunique (df.colVals c))),
              ("top_destination", topDest (df.colVals c))]
    | none => m
  match firstPresent df typeCandidates with
  | some c =>
      if "accommodation" ∈ df.cols then
        m5 ++ [("workaway_projects", MetricVal.int (nunique
          ((df.rows.filter (fun r => isWorkawayCell (r.get c))).map
            (fun r => r.get "accommodation"))))]
      else m5
  | none => m5

/-- `create_summary_metrics`: the empty frame yields the empty mapping;
otherwise the metric blocks run in source order.  The two unguarded
dictionary/column accesses of the source — `df['accommodation']` and
`metrics['days_on_road']` — raise a `KeyError` (`Except.error`) when
their key is absent. -/
def create_summary_metrics (df : DF) : Except String Metrics :=
  if df.isEmpty then Except.ok []
  else
    let m1 : Metrics :=
      match days_on_road df with
      | some d => [("days_on_road", MetricVal.int d)]
      | none => []
    if "accommodation" ∈ df.cols then
      let m2 := m1 ++
        [("unique_places_stayed", MetricVal.int (nunique (df.colVals "accommodation")))]
      let m3 := m2 ++
        (if "country" ∈ df.cols then
          [("visited_countries", MetricVal.int (nunique (df.colVals "country") + 1))]
        else [])
      match firstPresent df costCandidates with
      | some c =>
          let total := cellSum (df.colVals c)
          match m3.lookup "days_on_road" with
          | some (MetricVal.int d) =>
              Except.ok (tailMetrics df (m3 ++
                [("total_cost of accommodation", MetricVal.rat total),
                 ("average per person per night",
                   MetricVal.euro (round2 (qdiv (qdiv total (qmk 2 1)) (qmk d 1))))]))
          | _ => Except.error "days_on_road"
      | none => Except.ok (tailMetrics df m3)
    else Except.error "accommodation"

/- ### Flight metrics (`create_flight_metrics` in `flights.py`) -/

/-- Does the transport-type cell equal `'flight'` case-insensitively?
(`.str.lower() == 'flight'`; non-strings lowercase to missing and do
not match.) -/
def isFlightCell (c : Cell) : Bool :=
  match c with
  | Cell.str s => strLower s == "flight"
  | _ => false

/-- What the flight section displays: the no-data warning, the
no-flights notice, or the metrics (ticket count, the from/to/price
detail table, the summed total cost). -/
inductive FlightView where
  | warnNoData : FlightView
  | infoNoFlights : FlightView
  | metrics : ℕ → List (Cell × Cell × Cell) → ℚ → FlightView
deriving DecidableEq, Repr

/-- `create_flight_metrics`: an empty frame warns, a flight-free frame
informs, otherwise count / detail table / total are shown.  The
unguarded column accesses (`type of transport`, then `from`, `to` and
the price column of the detail table) raise a `KeyError` when absent. -/
def create_flight_metrics (df : DF) : Except String FlightView :=
  if df.isEmpty then Except.ok FlightView.warnNoData
  else if "type of transport" ∉ df.cols then Except.error "type of transport"
  else
    let fl := df.rows.filter (fun r => isFlightCell (r.get "type of transport"))
    if fl.isEmpty then Except.ok FlightView.infoNoFlights
    else if "from" ∉ df.cols then Except.error "from"
    else if "to" ∉ df.cols then Except.error "to"
    else if "price per person ( EUR )" ∉ df.cols then
      Except.error "price per person ( EUR )"
    else
      Except.ok (FlightView.metrics fl.length
        (fl.map (fun r =>
          (r.get "from", r.get "to", r.get "price per person ( EUR )")))
        (cellSum (fl.map (fun r => r.get "price per person ( EUR )"))))

/- ### Per-country grouped summary (`adjust_nights` and
`create_country_summary` in `app.py`) -/

/-- `pd.to_numeric(..., errors='coerce')` on one cell: numbers stay,
numeric strings parse, anything else becomes missing. -/
def toNumericCell (c : Cell) : Cell :=
  match c with
  | Cell.num q => Cell.num q
  | Cell.str s =>
      match parseDecimal s.data with
      | some q => Cell.num q
      | none => Cell.na
  | _ => Cell.na

/-- The in-place numeric coercion block of `create_country_summary`:
`nights`, `total price of stay`, `id` (when ordering by id) and `person`
(when present) are overwritten on the caller's frame. -/
def coerceCols (df : DF) (orderById : Bool) : DF :=
  let names := ["nights", "total price of stay"] ++
    (if orderById then ["id"] else []) ++
    (if "person" ∈ df.cols then ["person"] else [])
  { df with rows := df.rows.map (fun r =>
      r.map (fun p => if p.1 ∈ names then (p.1, toNumericCell p.2) else p)) }

/-- Numeric reading of a coerced cell (the cleaned rows carry numbers in
these columns). -/
def cellNum (c : Cell) : ℚ :=
  match c with
  | Cell.num q => q
  | _ => 0

/-- Does the row have a missing value among country, nights, total
price (the `isna` check driving the drop-with-warning)? -/
def badRow (r : Row) : Bool :=
  (r.get "country").isNa || (r.get "nights").isNa ||
    (r.get "total price of stay").isNa

/-- `adjust_nights` on one row: nights halved exactly when the person
cell is present and equals 1. -/
def adjustedNights (hasPerson : Bool) (r : Row) : ℚ :=
  if hasPerson then
    match r.get "person" with
    | Cell.num p => if p = 1 then qdiv (cellNum (r.get "nights")) (qmk 2 1)
                    else cellNum (r.get "nights")
    | _ => cellNum (r.get "nights")
  else cellNum (r.get "nights")

/-- Lexicographic (code-point) order on character lists: the comparison
Python and pandas use when sorting string group keys. -/
def charListLeB : List Char → List Char → Bool
  | [], _ => true
  | _ :: _, [] => false
  | a :: as, b :: bs => if a = b then charListLeB as bs else decide (a < b)

/-- Total order on cells used for the groupby key sort: the source only
ever groups homogeneous string keys, where this is the lexicographic
string order; the cross-constructor cases extend it totally. -/
def cellLeB (a b : Cell) : Bool :=
  match a, b with
  | Cell.na, Cell.na => true
  | Cell.na, _ => true
  | _, Cell.na => false
  | Cell.num x, Cell.num y => decide (x ≤ y)
  | Cell.num _, _ => true
  | _, Cell.num _ => false
  | Cell.str x, Cell.str y => charListLeB x.data y.data
  | Cell.str _, _ => true
  | _, Cell.str _ => false
  | Cell.date x, Cell.date y => decide (x ≤ y)

/-- One aggregated group before the derived columns: country key, summed
adjusted nights, summed total price, first id of the group. -/
structure GEntry where
  country : Cell
  nights : ℚ
  cost : ℚ
  fid : Option ℚ
deriving DecidableEq, Repr

/-- `≤` on optional ids as `sort_values` orders them: missing ids sort
last. -/
def optQLeB : Option ℚ → Option ℚ → Bool
  | none, none => true
  | none, some _ => false
  | some _, none => true
  | some x, some y => decide (x ≤ y)

/-- `≤` on first-seen ids as `sort_values('id')` orders them. -/
def fidLeB (a b : GEntry) : Bool := optQLeB a.fid b.fid

/-- One row of the displayed per-country table. -/
structure CountryRow where
  country : Cell
  nights : ℚ
  cost : ℚ
  avg : ℚ
  paid : ℚ
  avgPaid : ℚ
deriving DecidableEq, Repr

/-- What `create_country_summary` displays: one of its three error
messages, or the table together with its two soft warnings (rows
dropped for missing data; `person` column absent). -/
inductive CountryView where
  | errorEmpty : CountryView
  | errorMissing : List String → CountryView
  | errorNoValid : CountryView
  | table : Bool → Bool → List CountryRow → CountryView
deriving DecidableEq, Repr

/-- Aggregate one group: the rows of the key, summed. `agg('first')` on
`id` takes the first non-missing id in row order. -/
def entryOf (hasPerson : Bool) (rows : List Row) (k : Cell) : GEntry :=
  let g := rows.filter (fun r => r.get "country" == k)
  { country := k
    nights := qsum (g.map (adjustedNights hasPerson))
    cost := qsum (g.map (fun r => cellNum (r.get "total price of stay")))
    fid := (g.filterMap (fun r => numOfCell (r.get "id"))).head? }

/-- The paid-nights groupby: per country of the paid rows
(`total price of stay > 0`), the summed adjusted nights. -/
def paidNightsTable (hasPerson : Bool) (rows : List Row) : List (Cell × ℚ) :=
  let paidRows := rows.filter (fun r =>
    decide (0 < cellNum (r.get "total price of stay")))
  (List.insertionSort (fun a b => cellLeB a b = true)
      (paidRows.map (fun r => r.get "country")).dedup).map
    (fun k => (k, qsum ((paidRows.filter (fun r => r.get "country" == k)).map
      (adjustedNights hasPerson))))

/-- Derived columns of one grouped entry: the two-person night average,
the left-joined paid nights (missing join partners filled with 0), and
the paid-night average; both averages rounded to 2 decimals. -/
def finishEntry (paid : List (Cell × ℚ)) (e : GEntry) : CountryRow :=
  let p := ((paid.find? (fun q => q.1 == e.country)).map Prod.snd).getD 0
  { country := e.country
    nights := e.nights
    cost := e.cost
    avg := round2 (qdiv (qdiv e.cost e.nights) (qmk 2 1))
    paid := p
    avgPaid := round2 (if 0 < p then qdiv (qdiv e.cost p) (qmk 2 1) else 0) }

/-- `create_country_summary`: validation, in-place numeric coercion,
drop of incomplete rows, nights adjustment, groupby with aggregation,
id-based ordering, derived averages.  Returns the displayed view
together with the caller's frame after the call (the in-place coercion
makes the two differ).  Rational division by a zero denominator yields 0
here where pandas would display an infinite float; no claim reaches that
corner. -/
def create_country_summary (df : DF) (orderById : Bool) :
    CountryView × DF :=
  if df.isEmpty then (CountryView.errorEmpty, df)
  else
    let required := ["country", "nights", "total price of stay"] ++
      (if orderById then ["id"] else [])
    let missing := required.filter (fun c => decide (c ∉ df.cols))
    if missing.isEmpty = false then (CountryView.errorMissing missing, df)
    else
      let dfm := coerceCols df orderById
      let warnDropped := dfm.rows.any badRow
      let clean := dfm.rows.filter (fun r => !badRow r)
      if clean.isEmpty then (CountryView.errorNoValid, dfm)
      else
        let hasPerson := "person" ∈ dfm.cols
        let keys := List.insertionSort (fun a b => cellLeB a b = true)
          (clean.map (fun r => r.get "country")).dedup
        let entries := keys.map (entryOf hasPerson clean)
        let ordered :=
          if orderById then List.insertionSort (fun a b => fidLeB a b = true) entries
          else entries
        let paid := paidNightsTable hasPerson clean
        (CountryView.table warnDropped (decide (hasPerson = false))
          (ordered.map (finishEntry paid)), dfm)

/- ### Geo resolver (the country → ISO-3 resolution of
`create_world_map` in `app.py`) -/

/-- The static country-name → ISO-3 lookup table, verbatim from the
source (including its lowercase-key entries). -/
def country_to_iso : List (String × String) :=
  [("Afghanistan", "AFG"), ("Albania", "ALB"), ("Algeria", "DZA"),
   ("Andorra", "AND"), ("Angola", "AGO"), ("Antigua and Barbuda", "ATG"),
   ("Argentina", "ARG"), ("Armenia", "ARM"), ("Australia", "AUS"),
   ("austria", "AUT"), ("Azerbaijan", "AZE"), ("Bahamas", "BHS"),
   ("Bahrain", "BHR"), ("Bangladesh", "BGD"), ("Barbados", "BRB"),
   ("Belarus", "BLR"), ("Belgium", "BEL"), ("Belize", "BLZ"),
   ("Benin", "BEN"), ("Bhutan", "BTN"), ("Bolivia", "BOL"),
   ("Bosnia and Herzegovina", "BIH"), ("Botswana", "BWA"),
   ("Brazil", "BRA"), ("Brunei", "BRN"), ("bulgaria", "BGR"),
   ("Burkina Faso", "BFA"), ("Burundi", "BDI"), ("Cabo Verde", "CPV"),
   ("Cambodia", "KHM"), ("Cameroon", "CMR"), ("Canada", "CAN"),
   ("Central African Republic", "CAF"), ("Chad", "TCD"), ("Chile", "CHL"),
   ("china", "CHN"), ("Colombia", "COL"), ("Comoros", "COM"),
   ("Congo (Brazzaville)", "COG"), ("Congo (Kinshasa)", "COD"),
   ("Costa Rica", "CRI"), ("Croatia", "HRV"), ("Cuba", "CUB"),
   ("Cyprus", "CYP"), ("Czechia", "CZE"), ("Czech Republic", "CZE"),
   ("Denmark", "DNK"), ("Djibouti", "DJI"), ("Dominica", "DMA"),
   ("Dominican Republic", "DOM"), ("Ecuador", "ECU"), ("Egypt", "EGY"),
   ("El Salvador", "SLV"), ("Equatorial Guinea", "GNQ"),
   ("Eritrea", "ERI"), ("Estonia", "EST"), ("Eswatini", "SWZ"),
   ("Ethiopia", "ETH"), ("Fiji", "FJI"), ("Finland", "FIN"),
   ("France", "FRA"), ("Gabon", "GAB"), ("Gambia", "GMB"),
   ("Georgia", "GEO"), ("Germany", "DEU"), ("Ghana", "GHA"),
   ("Greece", "GRC"), ("Grenada", "GRD"), ("Guatemala", "GTM"),
   ("Guinea", "GIN"), ("Guinea-Bissau", "GNB"), ("Guyana", "GUY"),
   ("Haiti", "HTI"), ("Honduras", "HND"), ("hungary", "HUN"),
   ("Iceland", "ISL"), ("India", "IND"), ("Indonesia", "IDN"),
   ("Iran", "IRN"), ("Iraq", "IRQ"), ("Ireland", "IRL"),
   ("Israel", "ISR"), ("Italy", "ITA"), ("Jamaica", "JAM"),
   ("japan", "JPN"), ("Jordan", "JOR"), ("Kazakhstan", "KAZ"),
   ("Kenya", "KEN"), ("Kiribati", "KIR"), ("Kuwait", "KWT"),
   ("Kyrgyzstan", "KGZ"), ("laos", "LAO"), ("Latvia", "LVA"),
   ("Lebanon", "LBN"), ("Lesotho", "LSO"), ("Liberia", "LBR"),
   ("Libya", "LBY"), ("Liechtenstein", "LIE"), ("Lithuania", "LTU"),
   ("Luxembourg", "LUX"), ("Madagascar", "MDG"), ("Malawi", "MWI"),
   ("Malaysia", "MYS"), ("Maldives", "MDV"), ("Mali", "MLI"),
   ("Malta", "MLT"), ("Marshall Islands", "MHL"), ("Mauritania", "MRT"),
   ("Mauritius", "MUS"), ("Mexico", "MEX"), ("Micronesia", "FSM"),
   ("Moldova", "MDA"), ("Monaco", "MCO"), ("mongolia", "MNG"),
   ("Montenegro", "MNE"), ("Morocco", "MAR"), ("Mozambique", "MOZ"),
   ("Myanmar", "MMR"), ("Namibia", "NAM"), ("Nauru", "NRU"),
   ("Nepal", "NPL"), ("Netherlands", "NLD"), ("new zealand", "NZL"),
   ("Nicaragua", "NIC"), ("Niger", "NER"), ("Nigeria", "NGA"),
   ("North Korea", "PRK"), ("North Macedonia", "MKD"), ("norway", "NOR"),
   ("oman", "OMN"), ("Pakistan", "PAK"), ("Palau", "PLW"),
   ("Palestine", "PSE"), ("Panama", "PAN"), ("Papua New Guinea", "PNG"),
   ("Paraguay", "PRY"), ("Peru", "PER"), ("Philippines", "PHL"),
   ("poland", "POL"), ("Portugal", "PRT"), ("Qatar", "QAT"),
   ("Romania", "ROU"), ("Russia", "RUS"), ("Rwanda", "RWA"),
   ("Saint Kitts and Nevis", "KNA"), ("Saint Lucia", "LCA"),
   ("Saint Vincent and the Grenadines", "VCT"), ("Samoa", "WSM"),
   ("San Marino", "SMR"), ("Sao Tome and Principe", "STP"),
   ("Saudi Arabia", "SAU"), ("Senegal", "SEN"), ("Serbia", "SRB"),
   ("Seychelles", "SYC"), ("Sierra Leone", "SLE"), ("Singapore", "SGP"),
   ("slovakia", "SVK"), ("Slovenia", "SVN"), ("Solomon Islands", "SLB"),
   ("Somalia", "SOM"), ("South Africa", "ZAF"), ("south korea", "KOR"),
   ("South Sudan", "SSD"), ("Spain", "ESP"), ("sri lanka", "LKA"),
   ("Sudan", "SDN"), ("Suriname", "SUR"), ("sweden", "SWE"),
   ("Switzerland", "CHE"), ("Syria", "SYR"), ("Taiwan", "TWN"),
   ("Tajikistan", "TJK"), ("Tanzania", "TZA"), ("Thailand", "THA"),
   ("Timor-Leste", "TLS"), ("Togo", "TGO"), ("Tonga", "TON"),
   ("Trinidad and Tobago", "TTO"), ("Tunisia", "TUN"), ("turkey", "TUR"),
   ("Turkmenistan", "TKM"), ("Tuvalu", "TUV"), ("Uganda", "UGA"),
   ("Ukraine", "UKR"), ("united arab emirates", "ARE"),
   ("United Kingdom", "GBR"), ("United States", "USA"), ("USA", "USA"),
   ("Uruguay", "URY"), ("Uzbekistan", "UZB"), ("Vanuatu", "VUT"),
   ("Vatican City", "VAT"), ("Venezuela", "VEN"), ("Vietnam", "VNM"),
   ("Yemen", "YEM"), ("Zambia", "ZMB"), ("Zimbabwe", "ZWE")]

/-- First-occurrence-wins de-duplication by resolved code, with the set
of codes already kept (`drop_duplicates(subset=['iso_alpha'])`). -/
def dedupByCodeFrom (seen : List String) :
    List (String × String) → List (String × String)
  | [] => []
  | p :: rest =>
      if p.2 ∈ seen then dedupByCodeFrom seen rest
      else p :: dedupByCodeFrom (p.2 :: seen) rest

/-- First-occurrence-wins de-duplication by resolved code
(`drop_duplicates(subset=['iso_alpha'])`). -/
def dedupByCode (l : List (String × String)) : List (String × String) :=
  dedupByCodeFrom [] l

/-- The resolution core of `create_world_map`: keep the non-missing
country cells, map them through the table (a non-string or unmapped name
yields a missing code and is dropped), and de-duplicate by code keeping
the first occurrence.  Each surviving entry is the country name with its
ISO-3 code. -/
def resolve_countries (countries : List Cell) : List (String × String) :=
  dedupByCode (countries.filterMap (fun c =>
    match c with
    | Cell.str s => (country_to_iso.lookup s).map (fun i => (s, i))
    | _ => none))

/- ### Spec-side definitions

These state the quantities the way the specification words them; the
claim theorems compare them with the source embedding above. -/

/-- `days_on_road` as the spec words it: over the rows with both
check-in and check-out non-missing, `(max(check-out) − min(check-in))
.days + 1`, omitted when no such row exists. -/
def spec_days_on_road (df : DF) : Option ℤ :=
  if "check in" ∈ df.cols ∧ "check out" ∈ df.cols then
    let qual := df.rows.filterMap bothDates
    match (qual.map Prod.fst).min?, (qual.map Prod.snd).max? with
    | some firstDay, some lastDay => some (lastDay - firstDay + 1)
    | _, _ => none
  else none

/-- The count of distinct non-missing values of a column, as a set
cardinality. -/
def distinctCount (xs : List Cell) : ℕ :=
  ((xs.filter (fun c => !c.isNa)).toFinset).card

/-- Adjusted nights as §4.2 step 2 words it: nights halved when the
person count equals exactly 1, else unchanged; raw nights when no
person column exists. -/
def specAdjNights (hasPerson : Bool) (r : Row) : ℚ :=
  if hasPerson ∧ r.get "person" = Cell.num 1 then
    cellNum (r.get "nights") / 2
  else cellNum (r.get "nights")

/-- One output group of the per-country summary as §4.2 steps 3-7 word
it: per-country sums of adjusted nights and of total price,
`average_cost = total_price / adjusted_nights / 2`, paid nights summed
over the country's rows with positive price (0 when there are none),
`avg_cost_paid_night_person = total_price / paid_nights / 2` when
positive paid nights and 0 otherwise, both averages rounded to 2
decimals. -/
def specGroup (hasPerson : Bool) (clean : List Row) (k : Cell) : CountryRow :=
  let g := clean.filter (fun r => r.get "country" == k)
  let nights := (g.map (specAdjNights hasPerson)).sum
  let cost := (g.map (fun r => cellNum (r.get "total price of stay"))).sum
  let paid := ((g.filter (fun r =>
      decide (0 < cellNum (r.get "total price of stay")))).map
    (specAdjNights hasPerson)).sum
  { country := k, nights := nights, cost := cost
    avg := round2 (cost / nights / 2), paid := paid
    avgPaid := round2 (if 0 < paid then cost / paid / 2 else 0) }

/-- First-seen (non-missing) id of a country's rows, used for the group
ordering. -/
def firstIdOf (clean : List Row) (k : Cell) : Option ℚ :=
  ((clean.filter (fun r => r.get "country" == k)).filterMap
    (fun r => numOfCell (r.get "id"))).head?

/-- The per-country grouped summary (ordering by id) as the spec's step
list words it: validate, coerce, drop incomplete rows, group by country,
order the groups by first-seen id ascending, and attach the derived
columns of `specGroup`. -/
def spec_country_summary (df : DF) : Option (List CountryRow) :=
  if df.isEmpty then none
  else if "country" ∉ df.cols ∨ "nights" ∉ df.cols ∨
      "total price of stay" ∉ df.cols ∨ "id" ∉ df.cols then none
  else
    let dfm := coerceCols df true
    let clean := dfm.rows.filter (fun r => !badRow r)
    if clean.isEmpty then none
    else
      let hasPerson := "person" ∈ dfm.cols
      let keys := List.insertionSort (fun a b => cellLeB a b = true)
        (clean.map (fun r => r.get "country")).dedup
      let ordered := List.insertionSort
        (fun a b => optQLeB (firstIdOf clean a) (firstIdOf clean b) = true) keys
      some (ordered.map (specGroup hasPerson clean))

/- ### Concrete inputs used by the claim theorems -/

/-- A one-row frame with a cost column but no date columns: a cost-like
column exists while `days_on_road` is absent. -/
def dfCostNoDays : DF :=
  DF.mk ["accommodation", "cost"]
    [[("accommodation", Cell.str "A"), ("cost", Cell.num 10)]]

/-- A one-row frame with dates (5 inclusive days) and a cost column. -/
def dfCostWithDays : DF :=
  DF.mk ["accommodation", "check in", "check out", "cost"]
    [[("accommodation", Cell.str "A"), ("check in", Cell.date 0),
      ("check out", Cell.date 4), ("cost", Cell.num 10)]]

/-- The metrics `dfCostWithDays` produces. -/
def msCostWithDays : Metrics :=
  [("days_on_road", MetricVal.int 5),
   ("unique_places_stayed", MetricVal.int 1),
   ("total_cost of accommodation", MetricVal.rat 10),
   ("average per person per night", MetricVal.euro 1)]

/-- A one-row frame with accommodation and country columns. -/
def dfOneCountry : DF :=
  DF.mk ["accommodation", "country"]
    [[("accommodation", Cell.str "A"), ("country", Cell.str "France")]]

/-- The metrics `dfOneCountry` produces (note `visited_countries` is 2
for a single distinct country). -/
def msOneCountry : Metrics :=
  [("unique_places_stayed", MetricVal.int 1),
   ("visited_countries", MetricVal.int 2),
   ("unique_destinations", MetricVal.int 1),
   ("top_destination", MetricVal.cell (Cell.str "France"))]

/-- A raw accommodation table whose cost column holds one valid
European-formatted value and one malformed value. -/
def rawMalformedCost : RawTable :=
  RawTable.mk ["accommodation", "total price of stay"]
    [[("accommodation", "H1"), ("total price of stay", "1 234,56")],
     [("accommodation", "H2"), ("total price of stay", "abc")]]

/-- A nonempty frame without an `accommodation` column. -/
def dfNoAccommodation : DF :=
  DF.mk ["country"] [[("country", Cell.str "France")]]

/-- A nonempty transport frame without a `type of transport` column. -/
def dfNoTransportType : DF :=
  DF.mk ["from"] [[("from", Cell.str "VIE")]]

/-- A frame on which both metric operations succeed with every optional
column absent. -/
def dfOnlyAccommodation : DF :=
  DF.mk ["accommodation"] [[("accommodation", Cell.str "A")]]

/-- A transport frame with all four flight columns. -/
def dfTransportOk : DF :=
  DF.mk ["type of transport", "from", "to", "price per person ( EUR )"]
    [[("type of transport", Cell.str "train"), ("from", Cell.str "A"),
      ("to", Cell.str "B"), ("price per person ( EUR )", Cell.num 20)]]

/-- The spec's end-to-end scenario: countries France, France, Germany
with nights 2, 3, 5, prices 100, 150, 400, persons 2, 2, 1 (sequence
ids 1, 2, 3). -/
def dfScenario : DF :=
  DF.mk ["country", "nights", "total price of stay", "person", "id"]
    [[("country", Cell.str "France"), ("nights", Cell.num 2),
      ("total price of stay", Cell.num 100), ("person", Cell.num 2),
      ("id", Cell.num 1)],
     [("country", Cell.str "France"), ("nights", Cell.num 3),
      ("total price of stay", Cell.num 150), ("person", Cell.num 2),
      ("id", Cell.num 2)],
     [("country", Cell.str "Germany"), ("nights", Cell.num 5),
      ("total price of stay", Cell.num 400), ("person", Cell.num 1),
      ("id", Cell.num 3)]]

/-- The grouped rows the scenario produces: France 5 nights, cost 250,
average 25; Germany 2.5 nights, cost 400, average 80. -/
def scenarioRows : List CountryRow :=
  [{ country := Cell.str "France", nights := 5, cost := 250, avg := 25,
     paid := 5, avgPaid := 25 },
   { country := Cell.str "Germany", nights := qmk 5 2, cost := 400,
     avg := 80, paid := qmk 5 2, avgPaid := 80 }]

/-- A raw accommodation table whose single row spans 01.01.2024 to
05.01.2024. -/
def rawJanuary : RawTable :=
  RawTable.mk ["accommodation", "check in", "check out"]
    [[("accommodation", "H1"), ("check in", "01.01.2024"),
      ("check out", "05.01.2024")]]

/-- A frame whose `nights` column holds a non-numeric string. -/
def dfStringNights : DF :=
  DF.mk ["country", "nights", "total price of stay", "id"]
    [[("country", Cell.str "France"), ("nights", Cell.str "abc"),
      ("total price of stay", Cell.num 100), ("id", Cell.num 1)]]

/-- A transport frame with flights in three casings and a train row. -/
def dfFlights : DF :=
  DF.mk ["type of transport", "from", "to", "price per person ( EUR )"]
    [[("type of transport", Cell.str "Flight"), ("from", Cell.str "VIE"),
      ("to", Cell.str "BKK"), ("price per person ( EUR )", Cell.num 300)],
     [("type of transport", Cell.str "FLIGHT"), ("from", Cell.str "BKK"),
      ("to", Cell.str "HAN"), ("price per person ( EUR )", Cell.num 120)],
     [("type of transport", Cell.str "train"), ("from", Cell.str "A"),
      ("to", Cell.str "B"), ("price per person ( EUR )", Cell.num 20)],
     [("type of transport", Cell.str "flight"), ("from", Cell.str "HAN"),
      ("to", Cell.str "VIE"), ("price per person ( EUR )", Cell.num 250)]]

/-- A country-cell list with a repeat, an unknown spelling and a missing
value. -/
def geoSample : List Cell :=
  [Cell.str "France", Cell.str "francia", Cell.str "France",
   Cell.str "Germany", Cell.na]

/-- An empty frame that still declares a column. -/
def dfEmptyRows : DF := DF.mk ["accommodation"] []

/-- The metrics the January table produces. -/
def msJanuary : Metrics :=
  [("days_on_road", MetricVal.int 5),
   ("unique_places_stayed", MetricVal.int 1)]

/- ### Helper lemmas -/

theorem lookup_none_of_ne {β : Type} (l : List (String × β)) (k : String)
    (h : ∀ p ∈ l, k ≠ p.1) : l.lookup k = none := by
  induction l with
  | nil => rfl
  | cons p t ih =>
      rcases p with ⟨a, v⟩
      have hka : k ≠ a := h (a, v) (List.mem_cons_self _ _)
      simp only [List.lookup, beq_eq_false_iff_ne.mpr hka]
      exact ih (fun q hq => h q (List.mem_cons_of_mem _ hq))

theorem lookup_append {β : Type} (l₁ l₂ : List (String × β)) (k : String) :
    (l₁ ++ l₂).lookup k = ((l₁.lookup k).or (l₂.lookup k)) := by
  induction l₁ with
  | nil => simp [List.lookup]
  | cons p t ih =>
      rcases p with ⟨a, v⟩
      by_cases h : k = a
      · subst h
        simp [List.lookup]
      · simp only [List.cons_append, List.lookup,
          beq_eq_false_iff_ne.mpr h, List.append_eq, ih]

theorem lookup_append_ne {β : Type} (l adds : List (String × β)) (k : String)
    (h : ∀ p ∈ adds, k ≠ p.1) : (l ++ adds).lookup k = l.lookup k := by
  rw [lookup_append, lookup_none_of_ne adds k h, Option.or_none]

theorem tailMetrics_lookup (df : DF) (m : Metrics) (k : String)
    (h1 : k ≠ "unique_destinations") (h2 : k ≠ "top_destination")
    (h3 : k ≠ "workaway_projects") :
    (tailMetrics df m).lookup k = m.lookup k := by
  have hadd2 : ∀ m' : Metrics, ∀ u v : MetricVal,
      (m' ++ [("unique_destinations", u), ("top_destination", v)]).lookup k
        = m'.lookup k := by
    intro m' u v
    refine lookup_append_ne _ _ _ ?_
    intro p hp
    simp only [List.mem_cons, List.not_mem_nil, or_false] at hp
    rcases hp with rfl | rfl
    · exact h1
    · exact h2
  have hadd1 : ∀ m' : Metrics, ∀ u : MetricVal,
      (m' ++ [("workaway_projects", u)]).lookup k = m'.lookup k := by
    intro m' u
    refine lookup_append_ne _ _ _ ?_
    intro p hp
    simp only [List.mem_singleton] at hp
    subst hp
    exact h3
  cases hdest : firstPresent df destCandidates <;>
    cases htype : firstPresent df typeCandidates <;>
    simp only [tailMetrics, hdest, htype]
  · by_cases hacc : "accommodation" ∈ df.cols
    · rw [if_pos hacc, hadd1]
    · rw [if_neg hacc]
  · exact hadd2 m _ _
  · by_cases hacc : "accommodation" ∈ df.cols
    · rw [if_pos hacc, hadd1, hadd2]
    · rw [if_neg hacc]
      exact hadd2 m _ _

theorem int_min?_cons (x : ℤ) (xs : List ℤ) :
    (x :: xs).min? = some (xs.foldl min x) := rfl

theorem int_max?_cons (x : ℤ) (xs : List ℤ) :
    (x :: xs).max? = some (xs.foldl max x) := rfl

theorem days_on_road_eq_spec (df : DF) :
    days_on_road df = spec_days_on_road df := by
  rw [days_on_road, spec_days_on_road]
  by_cases h : "check in" ∈ df.cols ∧ "check out" ∈ df.cols
  · rw [if_pos h, if_pos h]
    cases hq : df.rows.filterMap bothDates with
    | nil => rfl
    | cons p ps =>
        simp only [List.map_cons, int_min?_cons, int_max?_cons]
        rw [List.foldl_map, List.foldl_map]
  · rw [if_neg h, if_neg h]

/-- `days_on_road` of a frame that `df.empty` accepts is absent. -/
theorem days_on_road_of_empty (df : DF) (h : df.isEmpty = true) :
    days_on_road df = none := by
  rw [DF.isEmpty, Bool.or_eq_true] at h
  rw [days_on_road]
  rcases h with h | h
  · rw [List.isEmpty_iff] at h
    by_cases hc : "check in" ∈ df.cols ∧ "check out" ∈ df.cols
    · rw [if_pos hc, h]
      rfl
    · rw [if_neg hc]
  · rw [List.isEmpty_iff] at h
    have hc : ¬ ("check in" ∈ df.cols ∧ "check out" ∈ df.cols) := by
      rw [h]
      simp
    rw [if_neg hc]

theorem lookup_cons_self {β : Type} (a : String) (v : β) (t : List (String × β)) :
    ((a, v) :: t).lookup a = some v := by
  simp [List.lookup]

theorem lookup_cons_ne {β : Type} (k a : String) (v : β) (t : List (String × β))
    (h : k ≠ a) : ((a, v) :: t).lookup k = t.lookup k := by
  simp [List.lookup, beq_eq_false_iff_ne.mpr h]

theorem lookup_days_of_ok (df : DF) (ms : Metrics)
    (hok : create_summary_metrics df = Except.ok ms) :
    ms.lookup "days_on_road" = (days_on_road df).map MetricVal.int := by
  have ne1 : "days_on_road" ≠ "unique_places_stayed" := by decide
  have ne2 : "days_on_road" ≠ "visited_countries" := by decide
  rw [create_summary_metrics] at hok
  by_cases hemp : df.isEmpty = true
  · rw [if_pos hemp] at hok
    injection hok with h
    subst h
    rw [days_on_road_of_empty df hemp]
    rfl
  · rw [if_neg hemp] at hok
    by_cases hacc : "accommodation" ∈ df.cols
    · cases hdays : days_on_road df with
      | some d =>
          cases hcost : firstPresent df costCandidates with
          | some c =>
              simp only [hdays, hcost, if_pos hacc, List.cons_append,
                List.nil_append, lookup_cons_self] at hok
              injection hok with h
              subst h
              rw [tailMetrics_lookup df _ _ (by decide) (by decide)
                (by decide)]
              exact lookup_cons_self _ _ _
          | none =>
              simp only [hdays, hcost, if_pos hacc, List.cons_append,
                List.nil_append] at hok
              injection hok with h
              subst h
              rw [tailMetrics_lookup df _ _ (by decide) (by decide)
                (by decide)]
              exact lookup_cons_self _ _ _
      | none =>
          cases hcost : firstPresent df costCandidates with
          | some c =>
              by_cases hctry : "country" ∈ df.cols
              · simp only [hdays, hcost, if_pos hacc, if_pos hctry,
                  List.cons_append, List.nil_append,
                  lookup_cons_ne _ _ _ _ ne1, lookup_cons_ne _ _ _ _ ne2,
                  List.lookup_nil] at hok
                exact absurd hok (by simp)
              · simp only [hdays, hcost, if_pos hacc, if_neg hctry,
                  List.cons_append, List.nil_append,
                  lookup_cons_ne _ _ _ _ ne1, List.lookup_nil] at hok
                exact absurd hok (by simp)
          | none =>
              simp only [hdays, hcost, if_pos hacc, List.cons_append,
                List.nil_append] at hok
              injection hok with h
              subst h
              rw [tailMetrics_lookup df _ _ (by decide) (by decide)
                (by decide)]
              rw [lookup_cons_ne _ _ _ _ ne1]
              by_cases hctry : "country" ∈ df.cols
              · rw [if_pos hctry, lookup_cons_ne _ _ _ _ ne2]
                rfl
              · rw [if_neg hctry]
                rfl
    · rw [if_neg hacc] at hok
      exact absurd hok (by simp)

/-- C6: in every successful summary-metrics run, the `days_on_road`
metric is present exactly when the check-in/check-out columns exist and
some row carries both dates, in which case it equals
`(max check-out − min check-in) + 1` (both endpoints inclusive), and it
is omitted otherwise. -/
theorem summary_days_on_road_correct (df : DF) (ms : Metrics)
    (hok : create_summary_metrics df = Except.ok ms) :
    ms.lookup "days_on_road" = (spec_days_on_road df).map MetricVal.int := by
  rw [← days_on_road_eq_spec]
  exact lookup_days_of_ok df ms hok

/-- C6 witness: check-in 01.01.2024 with check-out 05.01.2024 yields a
`days_on_road` of 5. -/
theorem summary_days_on_road_correct_witness :
    msJanuary.lookup "days_on_road" = some (MetricVal.int 5) := by
  have h := summary_days_on_road_correct (load_data rawJanuary) msJanuary
    (by decide)
  rw [h]
  decide

/-- C10: the empty frame yields the empty metrics mapping, with no
metric computed and no error raised (the source emits no warning in this
function). -/
theorem summary_metrics_on_empty (df : DF) (h : df.isEmpty = true) :
    create_summary_metrics df = Except.ok [] := by
  rw [create_summary_metrics, if_pos h]

/-- C10 witness: a frame with a declared column and no rows produces the
empty mapping. -/
theorem summary_metrics_on_empty_witness :
    create_summary_metrics dfEmptyRows = Except.ok [] :=
  summary_metrics_on_empty dfEmptyRows (by decide)

theorem nunique_eq_distinctCount (xs : List Cell) :
    nunique xs = distinctCount xs := by
  rw [nunique, distinctCount, List.card_toFinset]

/-- C2 (amended): in every successful run on a nonempty frame,
`unique_places_stayed` is the count of distinct non-missing
accommodation values, while `visited_countries` is that count for the
country column PLUS ONE (present only when the column exists). -/
theorem summary_distinct_counts (df : DF) (ms : Metrics)
    (hok : create_summary_metrics df = Except.ok ms)
    (hemp : df.isEmpty = false) :
    ms.lookup "unique_places_stayed"
      = some (MetricVal.int (distinctCount (df.colVals "accommodation"))) ∧
    ms.lookup "visited_countries"
      = (if "country" ∈ df.cols then
          some (MetricVal.int (distinctCount (df.colVals "country") + 1))
        else none) := by
  have ne1 : "unique_places_stayed" ≠ "days_on_road" := by decide
  have ne2 : "visited_countries" ≠ "days_on_road" := by decide
  have ne3 : "visited_countries" ≠ "unique_places_stayed" := by decide
  have ne4 : "visited_countries" ≠ "total_cost of accommodation" := by decide
  have ne5 : "visited_countries" ≠ "average per person per night" := by decide
  rw [create_summary_metrics] at hok
  rw [if_neg (by rw [hemp]; exact Bool.false_ne_true)] at hok
  by_cases hacc : "accommodation" ∈ df.cols
  · rw [← nunique_eq_distinctCount, ← nunique_eq_distinctCount]
    cases hdays : days_on_road df with
    | some d =>
        cases hcost : firstPresent df costCandidates with
        | some c =>
            simp only [hdays, hcost, if_pos hacc, List.cons_append,
              List.nil_append, lookup_cons_self] at hok
            injection hok with h
            subst h
            rw [tailMetrics_lookup df _ _ (by decide) (by decide) (by decide),
              tailMetrics_lookup df _ _ (by decide) (by decide) (by decide)]
            constructor
            · rw [lookup_cons_ne _ _ _ _ ne1]
              exact lookup_cons_self _ _ _
            · rw [lookup_cons_ne _ _ _ _ ne2, lookup_cons_ne _ _ _ _ ne3]
              by_cases hctry : "country" ∈ df.cols
              · rw [if_pos hctry, if_pos hctry]
                simp only [List.cons_append, List.nil_append]
                exact lookup_cons_self _ _ _
              · rw [if_neg hctry, if_neg hctry]
                simp only [List.nil_append]
                rw [lookup_cons_ne _ _ _ _ ne4, lookup_cons_ne _ _ _ _ ne5]
                rfl
        | none =>
            simp only [hdays, hcost, if_pos hacc, List.cons_append,
              List.nil_append] at hok
            injection hok with h
            subst h
            rw [tailMetrics_lookup df _ _ (by decide) (by decide) (by decide),
              tailMetrics_lookup df _ _ (by decide) (by decide) (by decide)]
            constructor
            · rw [lookup_cons_ne _ _ _ _ ne1]
              exact lookup_cons_self _ _ _
            · rw [lookup_cons_ne _ _ _ _ ne2, lookup_cons_ne _ _ _ _ ne3]
              by_cases hctry : "country" ∈ df.cols
              · rw [if_pos hctry, if_pos hctry]
                exact lookup_cons_self _ _ _
              · rw [if_neg hctry, if_neg hctry]
                rfl
    | none =>
        cases hcost : firstPresent df costCandidates with
        | some c =>
            by_cases hctry : "country" ∈ df.cols
            · simp only [hdays, hcost, if_pos hacc, if_pos hctry,
                List.cons_append, List.nil_append,
                lookup_cons_ne _ _ _ _ (show ("days_on_road" : String)
                  ≠ "unique_places_stayed" by decide),
                lookup_cons_ne _ _ _ _ (show ("days_on_road" : String)
                  ≠ "visited_countries" by decide),
                List.lookup_nil] at hok
              exact absurd hok (by simp)
            · simp only [hdays, hcost, if_pos hacc, if_neg hctry,
                List.cons_append, List.nil_append,
                lookup_cons_ne _ _ _ _ (show ("days_on_road" : String)
                  ≠ "unique_places_stayed" by decide),
                List.lookup_nil] at hok
              exact absurd hok (by simp)
        | none =>
            simp only [hdays, hcost, if_pos hacc, List.cons_append,
              List.nil_append] at hok
            injection hok with h
            subst h
            rw [tailMetrics_lookup df _ _ (by decide) (by decide) (by decide),
              tailMetrics_lookup df _ _ (by decide) (by decide) (by decide)]
            constructor
            · exact lookup_cons_self _ _ _
            · rw [lookup_cons_ne _ _ _ _ ne3]
              by_cases hctry : "country" ∈ df.cols
              · rw [if_pos hctry, if_pos hctry]
                exact lookup_cons_self _ _ _
              · rw [if_neg hctry, if_neg hctry]
                rfl
  · rw [if_neg hacc] at hok
    exact absurd hok (by simp)

/-- C2 counterexample: on a one-row frame with a single country the
`visited_countries` metric is 2, one more than the count of distinct
non-missing country values, so the claim as stated fails. -/
theorem visited_countries_off_by_one :
    create_summary_metrics dfOneCountry = Except.ok msOneCountry ∧
    msOneCountry.lookup "visited_countries" = some (MetricVal.int 2) ∧
    distinctCount (dfOneCountry.colVals "country") = 1 :=
  ⟨by decide, by decide, by decide⟩

/-- C2 witness: the amended statement evaluated on the one-country
frame. -/
theorem summary_distinct_counts_witness :
    msOneCountry.lookup "unique_places_stayed" = some (MetricVal.int 1) ∧
    msOneCountry.lookup "visited_countries" = some (MetricVal.int 2) := by
  obtain ⟨h1, h2⟩ := summary_distinct_counts dfOneCountry msOneCountry
    (by decide) (by decide)
  refine ⟨?_, ?_⟩
  · rw [h1]
    decide
  · rw [h2]
    decide

theorem qmk_two : qmk 2 1 = (2 : ℚ) := by
  rw [qmk_eq]
  norm_num

theorem qmk_int (d : ℤ) : qmk d 1 = (d : ℚ) := by
  rw [qmk_eq]
  simp

/-- C1 (amended): when a recognized cost-like column exists (first
match of the ordered candidate list) and `days_on_road` was computed,
the metrics carry the column's sum and the euro-formatted
`round(sum / 2 / days_on_road, 2)`; when no usable check-in/check-out
pair exists (`days_on_road` absent), the function instead raises a
`KeyError` on `'days_on_road'` — the divisor is not treated as 1 and no
metrics are produced. -/
theorem cost_metrics_amended (df : DF) (c : String)
    (hemp : df.isEmpty = false) (hacc : "accommodation" ∈ df.cols)
    (hc : firstPresent df costCandidates = some c) :
    (∀ d : ℤ, days_on_road df = some d →
      ∃ ms : Metrics, create_summary_metrics df = Except.ok ms ∧
        ms.lookup "total_cost of accommodation"
          = some (MetricVal.rat (cellSum (df.colVals c))) ∧
        ms.lookup "average per person per night"
          = some (MetricVal.euro
              (round2 (cellSum (df.colVals c) / 2 / (d : ℚ))))) ∧
    (days_on_road df = none →
      create_summary_metrics df = Except.error "days_on_road") := by
  have nd1 : ("days_on_road" : String) ≠ "unique_places_stayed" := by decide
  have nd2 : ("days_on_road" : String) ≠ "visited_countries" := by decide
  have nt1 : ("total_cost of accommodation" : String) ≠ "days_on_road" := by
    decide
  have nt2 : ("total_cost of accommodation" : String)
      ≠ "unique_places_stayed" := by decide
  have nt3 : ("total_cost of accommodation" : String)
      ≠ "visited_countries" := by decide
  have na1 : ("average per person per night" : String) ≠ "days_on_road" := by
    decide
  have na2 : ("average per person per night" : String)
      ≠ "unique_places_stayed" := by decide
  have na3 : ("average per person per night" : String)
      ≠ "visited_countries" := by decide
  have na4 : ("average per person per night" : String)
      ≠ "total_cost of accommodation" := by decide
  constructor
  · intro d hd
    refine ⟨tailMetrics df
      (("days_on_road", MetricVal.int d) ::
       ("unique_places_stayed",
         MetricVal.int (nunique (df.colVals "accommodation"))) ::
       ((if "country" ∈ df.cols then
           [("visited_countries",
             MetricVal.int (nunique (df.colVals "country") + 1))]
         else []) ++
        [("total_cost of accommodation",
          MetricVal.rat (cellSum (df.colVals c))),
         ("average per person per night", MetricVal.euro
           (round2 (qdiv (qdiv (cellSum (df.colVals c)) (qmk 2 1))
             (qmk d 1))))])), ?_, ?_, ?_⟩
    · rw [create_summary_metrics,
        if_neg (by rw [hemp]; exact Bool.false_ne_true)]
      simp only [hd, hc, if_pos hacc, List.cons_append, List.nil_append,
        lookup_cons_self]
    · rw [tailMetrics_lookup df _ _ (by decide) (by decide) (by decide),
        lookup_cons_ne _ _ _ _ nt1, lookup_cons_ne _ _ _ _ nt2]
      by_cases hctry : "country" ∈ df.cols
      · rw [if_pos hctry]
        simp only [List.cons_append, List.nil_append]
        rw [lookup_cons_ne _ _ _ _ nt3]
        exact lookup_cons_self _ _ _
      · rw [if_neg hctry]
        simp only [List.nil_append]
        exact lookup_cons_self _ _ _
    · rw [tailMetrics_lookup df _ _ (by decide) (by decide) (by decide),
        lookup_cons_ne _ _ _ _ na1, lookup_cons_ne _ _ _ _ na2]
      have hval : round2 (qdiv (qdiv (cellSum (df.colVals c)) (qmk 2 1))
          (qmk d 1)) = round2 (cellSum (df.colVals c) / 2 / (d : ℚ)) := by
        rw [qdiv_eq, qdiv_eq, qmk_two, qmk_int]
      by_cases hctry : "country" ∈ df.cols
      · rw [if_pos hctry]
        simp only [List.cons_append, List.nil_append]
        rw [lookup_cons_ne _ _ _ _ na3, lookup_cons_ne _ _ _ _ na4,
          lookup_cons_self, hval]
      · rw [if_neg hctry]
        simp only [List.nil_append]
        rw [lookup_cons_ne _ _ _ _ na4, lookup_cons_self, hval]
  · intro hd
    rw [create_summary_metrics,
      if_neg (by rw [hemp]; exact Bool.false_ne_true)]
    by_cases hctry : "country" ∈ df.cols
    · simp only [hd, hc, if_pos hacc, if_pos hctry, List.cons_append,
        List.nil_append, lookup_cons_ne _ _ _ _ nd1,
        lookup_cons_ne _ _ _ _ nd2, List.lookup_nil]
    · simp only [hd, hc, if_pos hacc, if_neg hctry, List.cons_append,
        List.nil_append, lookup_cons_ne _ _ _ _ nd1, List.lookup_nil]

/-- C1 counterexample: a nonempty frame with a cost column but no
check-in/check-out data makes the summary-metrics operation raise a
`KeyError` on `'days_on_road'`; no metric is produced, contradicting
the claimed divide-by-1 fallback. -/
theorem cost_metric_keyerror :
    create_summary_metrics dfCostNoDays = Except.error "days_on_road" := by
  decide

/-- C1 witness: 5 days on the road with total cost 10 give the euro
average `round(10 / 2 / 5, 2) = 1`. -/
theorem cost_metrics_amended_witness :
    create_summary_metrics dfCostWithDays = Except.ok msCostWithDays ∧
    msCostWithDays.lookup "total_cost of accommodation"
      = some (MetricVal.rat 10) ∧
    msCostWithDays.lookup "average per person per night"
      = some (MetricVal.euro 1) := by
  obtain ⟨ms, hok, htc, havg⟩ :=
    (cost_metrics_amended dfCostWithDays "cost" (by decide) (by decide)
      (by decide)).1 5 (by decide)
  have h2 : create_summary_metrics dfCostWithDays
      = Except.ok msCostWithDays := by decide
  have hms : ms = msCostWithDays := by
    rw [hok] at h2
    exact Except.ok.inj h2
  subst hms
  refine ⟨h2, ?_, ?_⟩
  · rw [htc, show cellSum (dfCostWithDays.colVals "cost") = 10 from by decide]
  · rw [havg]
    have e1 : cellSum (dfCostWithDays.colVals "cost") = 10 := by decide
    rw [e1]
    have e2 : (10 : ℚ) / 2 / ((5 : ℤ) : ℚ) = 1 := by norm_num
    rw [e2, show round2 1 = 1 from by decide]

theorem summary_total (df : DF) (hacc : "accommodation" ∈ df.cols)
    (hdc : ∀ c, firstPresent df costCandidates = some c →
      days_on_road df ≠ none) :
    ∃ ms : Metrics, create_summary_metrics df = Except.ok ms := by
  by_cases hemp : df.isEmpty = true
  · exact ⟨[], by rw [create_summary_metrics, if_pos hemp]⟩
  · rw [create_summary_metrics, if_neg hemp]
    cases hcost : firstPresent df costCandidates with
    | none =>
        exact ⟨_, by
          simp only [hcost, if_pos hacc]
          rfl⟩
    | some c =>
        cases hdays : days_on_road df with
        | none => exact absurd hdays (hdc c hcost)
        | some d =>
            exact ⟨_, by
              simp only [hdays, hcost, if_pos hacc, List.cons_append,
                List.nil_append, lookup_cons_self]
              rfl⟩

theorem flight_total (df : DF) (hty : "type of transport" ∈ df.cols)
    (hfrom : "from" ∈ df.cols) (hto : "to" ∈ df.cols)
    (hpr : "price per person ( EUR )" ∈ df.cols) :
    ∃ v : FlightView, create_flight_metrics df = Except.ok v := by
  rw [create_flight_metrics]
  by_cases hemp : df.isEmpty = true
  · exact ⟨_, by rw [if_pos hemp]⟩
  · rw [if_neg hemp, if_neg (not_not_intro hty)]
    by_cases hfl : (df.rows.filter
        (fun r => isFlightCell (r.get "type of transport"))).isEmpty = true
    · exact ⟨_, by rw [if_pos hfl]⟩
    · rw [if_neg hfl, if_neg (not_not_intro hfrom),
        if_neg (not_not_intro hto), if_neg (not_not_intro hpr)]
      exact ⟨_, rfl⟩

/-- C4 (amended): the metric operations are total — never raise — only
when their always-accessed prerequisites are present: the summary
operation needs the `accommodation` column and, when a cost-like column
exists, a computed `days_on_road`; the flight operation needs the
`type of transport` column (and the `from`/`to`/price columns for the
detail table).  Metrics with other missing prerequisite columns are
simply omitted.  When these prerequisites are absent, the operations
raise a `KeyError` instead. -/
theorem metrics_never_raise_amended (df dft : DF)
    (hacc : "accommodation" ∈ df.cols)
    (hdc : ∀ c, firstPresent df costCandidates = some c →
      days_on_road df ≠ none)
    (hty : "type of transport" ∈ dft.cols) (hfrom : "from" ∈ dft.cols)
    (hto : "to" ∈ dft.cols) (hpr : "price per person ( EUR )" ∈ dft.cols) :
    (∃ ms : Metrics, create_summary_metrics df = Except.ok ms) ∧
    (∃ v : FlightView, create_flight_metrics dft = Except.ok v) :=
  ⟨summary_total df hacc hdc, flight_total dft hty hfrom hto hpr⟩

/-- C4 counterexample: with the `accommodation` column absent the
summary operation raises, and with the `type of transport` column
absent the flight operation raises — neither is the claimed soft
omission. -/
theorem metrics_raise_on_missing_columns :
    create_summary_metrics dfNoAccommodation
      = Except.error "accommodation" ∧
    create_flight_metrics dfNoTransportType
      = Except.error "type of transport" :=
  ⟨by decide, by decide⟩

/-- C4 witness: the amended statement evaluated on frames with the
prerequisites present and all optional columns absent. -/
theorem metrics_never_raise_amended_witness :
    create_summary_metrics dfOnlyAccommodation
      = Except.ok [("unique_places_stayed", MetricVal.int 1)] ∧
    create_flight_metrics dfTransportOk
      = Except.ok FlightView.infoNoFlights := by
  obtain ⟨⟨ms, hms⟩, v, hv⟩ := metrics_never_raise_amended
    dfOnlyAccommodation dfTransportOk (by decide)
    (by
      intro c hc
      have hnone : firstPresent dfOnlyAccommodation costCandidates = none := by
        decide
      rw [hnone] at hc
      exact Option.noConfusion hc)
    (by decide) (by decide) (by decide) (by decide)
  exact ⟨by decide, by decide⟩

/-- C8: the flight view keeps exactly the rows whose transport type
equals `"flight"` case-insensitively; the count is the number of kept
rows and the total is the sum of their per-person prices (missing
prices skipped); an empty frame warns and a flight-free frame informs,
neither erroring. -/
theorem create_flight_metrics_correct (df : DF)
    (hty : "type of transport" ∈ df.cols) (hfrom : "from" ∈ df.cols)
    (hto : "to" ∈ df.cols) (hpr : "price per person ( EUR )" ∈ df.cols) :
    (∀ s : String,
      isFlightCell (Cell.str s) = (strLower s == strLower "flight")) ∧
    (df.isEmpty = true →
      create_flight_metrics df = Except.ok FlightView.warnNoData) ∧
    (df.isEmpty = false →
      (let fl := df.rows.filter
        (fun r => isFlightCell (r.get "type of transport"))
       (fl.isEmpty = true →
         create_flight_metrics df = Except.ok FlightView.infoNoFlights) ∧
       (fl.isEmpty = false →
         create_flight_metrics df = Except.ok (FlightView.metrics
           fl.length
           (fl.map (fun r => (r.get "from", r.get "to",
             r.get "price per person ( EUR )")))
           (((fl.map (fun r => r.get "price per person ( EUR )")).filterMap
             numOfCell).sum))))) := by
  refine ⟨?_, ?_, ?_⟩
  · intro s
    conv_rhs => rw [show strLower "flight" = "flight" from by decide]
    rfl
  · intro h
    rw [create_flight_metrics, if_pos h]
  · intro hemp
    have hemp' : ¬ df.isEmpty = true := by
      rw [hemp]
      exact Bool.false_ne_true
    refine ⟨?_, ?_⟩
    · intro hfl
      rw [create_flight_metrics, if_neg hemp',
        if_neg (not_not_intro hty), if_pos hfl]
    · intro hfl
      rw [create_flight_metrics, if_neg hemp',
        if_neg (not_not_intro hty), if_neg (by rw [hfl]; exact
          Bool.false_ne_true), if_neg (not_not_intro hfrom),
        if_neg (not_not_intro hto), if_neg (not_not_intro hpr)]
      simp only [cellSum, qsum_eq]

/-- C8 witness: `"Flight"`, `"FLIGHT"` and `"flight"` match while
`"train"` does not, giving 3 tickets with total cost 670 on the sample
transport table. -/
theorem create_flight_metrics_correct_witness :
    create_flight_metrics dfFlights = Except.ok (FlightView.metrics 3
      [(Cell.str "VIE", Cell.str "BKK", Cell.num 300),
       (Cell.str "BKK", Cell.str "HAN", Cell.num 120),
       (Cell.str "HAN", Cell.str "VIE", Cell.num 250)] 670) ∧
    isFlightCell (Cell.str "Flight") = true ∧
    isFlightCell (Cell.str "FLIGHT") = true ∧
    isFlightCell (Cell.str "flight") = true ∧
    isFlightCell (Cell.str "train") = false := by
  obtain ⟨hci, hwarn, hrest⟩ := create_flight_metrics_correct dfFlights
    (by decide) (by decide) (by decide) (by decide)
  exact ⟨by decide, by decide, by decide, by decide, by decide⟩

theorem dedupByCodeFrom_subset (l : List (String × String)) :
    ∀ seen : List String, ∀ p ∈ dedupByCodeFrom seen l, p ∈ l := by
  induction l with
  | nil =>
      intro seen p hp
      exact absurd hp (List.not_mem_nil p)
  | cons q t ih =>
      intro seen p hp
      rw [dedupByCodeFrom] at hp
      by_cases hs : q.2 ∈ seen
      · rw [if_pos hs] at hp
        exact List.mem_cons_of_mem _ (ih seen p hp)
      · rw [if_neg hs] at hp
        rcases List.mem_cons.mp hp with rfl | hp2
        · exact List.mem_cons_self _ _
        · exact List.mem_cons_of_mem _ (ih _ p hp2)

theorem dedupByCodeFrom_nodup (l : List (String × String)) :
    ∀ seen : List String,
      ((dedupByCodeFrom seen l).map Prod.snd).Nodup ∧
      ∀ p ∈ dedupByCodeFrom seen l, p.2 ∉ seen := by
  induction l with
  | nil =>
      intro seen
      simp [dedupByCodeFrom]
  | cons q t ih =>
      intro seen
      rw [dedupByCodeFrom]
      by_cases hs : q.2 ∈ seen
      · rw [if_pos hs]
        exact ih seen
      · rw [if_neg hs]
        obtain ⟨hnd, hni⟩ := ih (q.2 :: seen)
        refine ⟨?_, ?_⟩
        · rw [List.map_cons, List.nodup_cons]
          refine ⟨?_, hnd⟩
          intro hmem
          obtain ⟨p, hp, hpe⟩ := List.mem_map.mp hmem
          exact (hni p hp) (hpe ▸ List.mem_cons_self _ _)
        · intro p hp
          rcases List.mem_cons.mp hp with rfl | hp2
          · exact hs
          · intro hmem
            exact (hni p hp2) (List.mem_cons_of_mem _ hmem)

theorem dedupByCodeFrom_first (l : List (String × String)) :
    ∀ seen : List String, ∀ p ∈ dedupByCodeFrom seen l,
      l.find? (fun x => x.2 == p.2) = some p := by
  induction l with
  | nil =>
      intro seen p hp
      exact absurd hp (List.not_mem_nil p)
  | cons q t ih =>
      intro seen p hp
      rw [dedupByCodeFrom] at hp
      by_cases hs : q.2 ∈ seen
      · rw [if_pos hs] at hp
        have hps : p.2 ∉ seen := (dedupByCodeFrom_nodup t seen).2 p hp
        have hne : ¬ ((fun x : String × String => x.2 == p.2) q = true) := by
          simp only [beq_iff_eq]
          intro he
          exact hps (he ▸ hs)
        rw [List.find?_cons_of_neg t hne]
        exact ih seen p hp
      · rw [if_neg hs] at hp
        rcases List.mem_cons.mp hp with rfl | hp2
        · exact List.find?_cons_of_pos _ (by simp)
        · have hps : p.2 ∉ q.2 :: seen :=
            (dedupByCodeFrom_nodup t (q.2 :: seen)).2 p hp2
          have hne : ¬ ((fun x : String × String => x.2 == p.2) q = true) := by
            simp only [beq_iff_eq]
            intro he
            exact hps (he ▸ List.mem_cons_self _ _)
          rw [List.find?_cons_of_neg t hne]
          exact ih _ p hp2

theorem dedupByCodeFrom_complete (l : List (String × String)) :
    ∀ seen : List String, ∀ p ∈ l, p.2 ∉ seen →
      ∃ q ∈ dedupByCodeFrom seen l, q.2 = p.2 := by
  induction l with
  | nil =>
      intro seen p hp
      exact absurd hp (List.not_mem_nil p)
  | cons q t ih =>
      intro seen p hp hpseen
      rw [dedupByCodeFrom]
      by_cases hs : q.2 ∈ seen
      · rw [if_pos hs]
        rcases List.mem_cons.mp hp with rfl | hp2
        · exact absurd hs hpseen
        · exact ih seen p hp2 hpseen
      · rw [if_neg hs]
        rcases List.mem_cons.mp hp with he | hp2
        · exact ⟨q, List.mem_cons_self _ _, by rw [he]⟩
        · by_cases hqp : p.2 = q.2
          · exact ⟨q, List.mem_cons_self _ _, hqp.symm⟩
          · obtain ⟨q', hq', hq'e⟩ := ih (q.2 :: seen) p hp2
              (by
                intro hmem
                rcases List.mem_cons.mp hmem with he | he
                · exact hqp he
                · exact hpseen he)
            exact ⟨q', List.mem_cons_of_mem _ hq', hq'e⟩

/-- C9: the geo resolution keeps exactly the country names the static
table maps (each paired with its ISO-3 code, `"France" ↦ "FRA"`), keeps
at most one entry per resolved code — the first occurrence of that code
— and silently excludes every unmapped name such as `"francia"`. -/
theorem resolve_countries_correct (cs : List Cell) :
    country_to_iso.lookup "France" = some "FRA" ∧
    country_to_iso.lookup "francia" = none ∧
    (∀ p ∈ resolve_countries cs,
      country_to_iso.lookup p.1 = some p.2 ∧ Cell.str p.1 ∈ cs) ∧
    ((resolve_countries cs).map Prod.snd).Nodup ∧
    (∀ n i, country_to_iso.lookup n = none →
      (n, i) ∉ resolve_countries cs) ∧
    (∀ s i, Cell.str s ∈ cs → country_to_iso.lookup s = some i →
      ∃ q ∈ resolve_countries cs, q.2 = i) ∧
    (∀ p ∈ resolve_countries cs,
      (cs.filterMap (fun c => match c with
        | Cell.str s => (country_to_iso.lookup s).map (fun i => (s, i))
        | _ => none)).find? (fun x => x.2 == p.2) = some p) := by
  have hmem : ∀ p ∈ cs.filterMap (fun c => match c with
      | Cell.str s => (country_to_iso.lookup s).map (fun i => (s, i))
      | _ => none),
      country_to_iso.lookup p.1 = some p.2 ∧ Cell.str p.1 ∈ cs := by
    intro p hp
    obtain ⟨c, hc, hce⟩ := List.mem_filterMap.mp hp
    match c with
    | Cell.na => exact absurd hce (by simp)
    | Cell.num q => exact absurd hce (by simp)
    | Cell.date d => exact absurd hce (by simp)
    | Cell.str s =>
        have hce2 : (country_to_iso.lookup s).map (fun i => (s, i))
            = some p := hce
        cases hlk : country_to_iso.lookup s with
        | none =>
            rw [hlk] at hce2
            exact absurd hce2 (by simp)
        | some i =>
            rw [hlk] at hce2
            have hpe : (s, i) = p := Option.some.inj hce2
            rw [← hpe]
            exact ⟨hlk, hc⟩
  refine ⟨by decide, by decide, ?_, ?_, ?_, ?_, ?_⟩
  · intro p hp
    exact hmem p (dedupByCodeFrom_subset _ [] p hp)
  · exact (dedupByCodeFrom_nodup _ []).1
  · intro n i hn hmem2
    have := (hmem (n, i) (dedupByCodeFrom_subset _ [] _ hmem2)).1
    rw [hn] at this
    exact Option.noConfusion this
  · intro s i hs hi
    refine dedupByCodeFrom_complete _ [] (s, i) ?_ (List.not_mem_nil _)
    refine List.mem_filterMap.mpr ⟨Cell.str s, hs, ?_⟩
    show (country_to_iso.lookup s).map (fun i => (s, i)) = some (s, i)
    rw [hi]
    rfl
  · intro p hp
    exact dedupByCodeFrom_first _ [] p hp

theorem toLower_digit (c : Char) (h : c.isDigit = true) : c.toLower = c := by
  simp only [Char.isDigit, ge_iff_le, Bool.and_eq_true, decide_eq_true_eq] at h
  obtain ⟨h1, h2⟩ := h
  have h2n : c.val.toNat ≤ 57 := h2
  simp only [Char.toLower, Char.toNat]
  rw [if_neg]
  rintro ⟨ha, hb⟩
  have : 65 ≤ c.val.toNat := ha
  omega

theorem isDigit_ne_comma (c : Char) (h : c.isDigit = true) : c ≠ ',' := by
  rintro rfl
  simp [Char.isDigit] at h

theorem isDigit_ne (c : Char) (h : c.isDigit = true) :
    c ≠ 'n' ∧ c ≠ '+' ∧ c ≠ '-' ∧ c ≠ '.' := by
  refine ⟨?_, ?_, ?_, ?_⟩ <;> rintro rfl <;> simp [Char.isDigit] at h

theorem map_commaDot_digits (l : List Char) (hl : l.all Char.isDigit = true) :
    l.map (fun c => if c = ',' then '.' else c) = l := by
  induction l with
  | nil => rfl
  | cons c t ih =>
      rw [List.all_cons, Bool.and_eq_true] at hl
      rw [List.map_cons, ih hl.2, if_neg (isDigit_ne_comma c hl.1)]

theorem takeWhile_digits_append (l r : List Char)
    (hl : l.all Char.isDigit = true) (hr : ∀ c ∈ r.head?, c.isDigit = false) :
    (l ++ r).takeWhile Char.isDigit = l ∧
    (l ++ r).dropWhile Char.isDigit = r := by
  induction l with
  | nil =>
      simp only [List.nil_append]
      cases r with
      | nil => exact ⟨rfl, rfl⟩
      | cons c t =>
          have hc := hr c rfl
          rw [List.takeWhile_cons, List.dropWhile_cons, hc]
          exact ⟨rfl, rfl⟩
  | cons c t ih =>
      rw [List.all_cons, Bool.and_eq_true] at hl
      obtain ⟨ih1, ih2⟩ := ih hl.2
      rw [List.cons_append, List.takeWhile_cons, List.dropWhile_cons, hl.1]
      exact ⟨by simp [ih1], by simp [ih2]⟩

theorem parseAfterSign_euro (intPart frac : List Char) (hne : intPart ≠ [])
    (hdi : intPart.all Char.isDigit = true)
    (hdf : frac.all Char.isDigit = true) :
    parseAfterSign 1 (intPart ++ '.' :: frac)
      = some (qmk (natOfDigitChars (intPart ++ frac))
          ((10 ^ frac.length : ℕ) : ℤ)) := by
  have hhead : ∀ c ∈ ('.' :: frac).head?, c.isDigit = false := by
    intro c hcm
    simp only [List.head?_cons, Option.mem_def, Option.some.injEq] at hcm
    subst hcm
    decide
  obtain ⟨ht, hd2⟩ := takeWhile_digits_append intPart ('.' :: frac) hdi hhead
  simp only [parseAfterSign, ht, hd2]
  rw [if_pos ⟨hdf, Or.inl hne⟩, one_mul]

theorem strData (l : List Char) : (String.mk l).data = l := rfl

theorem parseDecimal_digit_head (c : Char) (rest : List Char)
    (hc : c.isDigit = true) :
    parseDecimal (c :: rest) = parseAfterSign 1 (c :: rest) := by
  obtain ⟨hn, hp, hm, hd⟩ := isDigit_ne c hc
  rw [parseDecimal, if_neg hm, if_neg hp]

theorem pyFloat_euro (intPart frac : List Char) (hne : intPart ≠ [])
    (hdi : intPart.all Char.isDigit = true)
    (hdf : frac.all Char.isDigit = true) :
    pyFloat ⟨intPart ++ '.' :: frac⟩
      = Except.ok (Cell.num (qmk (natOfDigitChars (intPart ++ frac))
          ((10 ^ frac.length : ℕ) : ℤ))) := by
  obtain ⟨c, ip, rfl⟩ := List.exists_cons_of_ne_nil hne
  have hc : c.isDigit = true := by
    rw [List.all_cons, Bool.and_eq_true] at hdi
    exact hdi.1
  obtain ⟨hn, hp, hm, hd⟩ := isDigit_ne c hc
  simp only [pyFloat, strData, List.cons_append, List.map_cons,
    toLower_digit c hc]
  rw [if_neg (by
    rintro (h | h | h) <;> injection h with h1 h2
    · exact hn h1
    · exact hp h1
    · exact hm h1)]
  rw [parseDecimal_digit_head c _ hc, ← List.cons_append,
    parseAfterSign_euro (c :: ip) frac hne hdi hdf]
  rfl

theorem mapE_ok_forall {α β : Type} (f : α → Except String β) (l : List α) :
    ∀ l' : List β, mapE f l = Except.ok l' →
      ∀ x ∈ l, ∃ y, f x = Except.ok y := by
  induction l with
  | nil =>
      intro l' h x hx
      exact absurd hx (List.not_mem_nil x)
  | cons a t ih =>
      intro l' h x hx
      rw [mapE] at h
      cases hfa : f a with
      | error e =>
          rw [hfa] at h
          exact Except.noConfusion h
      | ok b =>
          rw [hfa] at h
          cases hmt : mapE f t with
          | error e =>
              rw [hmt] at h
              exact Except.noConfusion h
          | ok bs =>
              rcases List.mem_cons.mp hx with rfl | hx2
              · exact ⟨b, hfa⟩
              · exact ih bs hmt x hx2

theorem mapE_error_of_mem {α β : Type} (f : α → Except String β)
    (l : List α) (x : α) (hx : x ∈ l) (e : String)
    (he : f x = Except.error e) :
    ∃ e2, mapE f l = Except.error e2 := by
  cases hm : mapE f l with
  | error e2 => exact ⟨e2, rfl⟩
  | ok l' =>
      obtain ⟨y, hy⟩ := mapE_ok_forall f l l' hm x hx
      rw [he] at hy
      exact Except.noConfusion hy

/-- C3 (amended): the locale normalizer maps every valid
European-formatted numeric string (any space grouping, comma decimal
separator) to its decimal value; but a malformed field in the cost
column raises inside the conversion, the loader catches the exception,
and the WHOLE load collapses to the empty table — the row does not
survive with a missing marker. -/
theorem normalizer_correct_amended :
    (∀ (s : String) (intPart frac : List Char),
      intPart ≠ [] → intPart.all Char.isDigit = true →
      frac.all Char.isDigit = true →
      s.data.filter (fun c => c ≠ ' ') = intPart ++ ',' :: frac →
      normalizeCostField s = Except.ok (Cell.num
        ((natOfDigitChars (intPart ++ frac) : ℚ) /
          (10 ^ frac.length : ℚ)))) ∧
    (∀ raw : RawTable, "total price of stay" ∈ raw.cols →
      (∃ r ∈ raw.rows, ∃ pr ∈ r, pr.1 = "total price of stay" ∧
        ∃ e, normalizeCostCell (readField pr.2) = Except.error e) →
      load_data raw = DF.mk [] []) := by
  constructor
  · intro s intPart frac hne hdi hdf hshape
    have hs0 : ¬ s = "" := by
      intro h
      subst h
      rw [show ("" : String).data = [] from rfl] at hshape
      simp only [List.filter_nil] at hshape
      exact hne (List.append_eq_nil.mp hshape.symm).1
    rw [normalizeCostField, if_neg hs0, hshape, List.map_append,
      List.map_cons, map_commaDot_digits intPart hdi,
      map_commaDot_digits frac hdf, if_pos rfl,
      pyFloat_euro intPart frac hne hdi hdf]
    have hv : qmk (natOfDigitChars (intPart ++ frac))
        ((10 ^ frac.length : ℕ) : ℤ)
        = ((natOfDigitChars (intPart ++ frac) : ℚ) /
            (10 ^ frac.length : ℚ)) := by
      rw [qmk_eq]
      push_cast
      ring
    rw [hv]
  · intro raw hcol hbad
    obtain ⟨r, hr, pr, hpr, hname, e, herr⟩ := hbad
    have hfe : (fun p : String × Cell =>
        if p.1 = "total price of stay" then
          match normalizeCostCell p.2 with
          | Except.error e => Except.error e
          | Except.ok v => Except.ok (p.1, v)
        else Except.ok p) (pr.1, readField pr.2) = Except.error e := by
      show (if pr.1 = "total price of stay" then _ else _) = _
      rw [if_pos hname, herr]
    obtain ⟨e1, he1⟩ := mapE_error_of_mem
      (fun p : String × Cell =>
        if p.1 = "total price of stay" then
          match normalizeCostCell p.2 with
          | Except.error e => Except.error e
          | Except.ok v => Except.ok (p.1, v)
        else Except.ok p)
      (r.map (fun p => (p.1, readField p.2))) (pr.1, readField pr.2)
      (List.mem_map.mpr ⟨pr, hpr, rfl⟩) e hfe
    have he1b : normalizeColRow "total price of stay"
        (r.map (fun p => (p.1, readField p.2))) = Except.error e1 := he1
    obtain ⟨e2, he2⟩ := mapE_error_of_mem
      (normalizeColRow "total price of stay")
      (raw.rows.map (fun r => r.map (fun p => (p.1, readField p.2))))
      (r.map (fun p => (p.1, readField p.2)))
      (List.mem_map.mpr ⟨r, hr, rfl⟩) e1 he1b
    simp only [load_data, if_pos hcol, he2]

/-- C3 counterexample: a two-row table whose second cost field is
`"abc"` loads to the EMPTY frame — the malformed field neither becomes
a missing marker nor lets the rest of the load survive. -/
theorem malformed_cost_empties_load :
    rawMalformedCost.rows.length = 2 ∧
    normalizeCostField "abc" = Except.error "abc" ∧
    load_data rawMalformedCost = DF.mk [] [] :=
  ⟨by decide, by decide, by decide⟩

/-- C3 witness: `"1 234,56"` normalizes to `1234.56`, and the malformed
table collapses to the empty frame. -/
theorem normalizer_correct_amended_witness :
    normalizeCostField "1 234,56" = Except.ok (Cell.num
      ((natOfDigitChars ("1234".data ++ "56".data) : ℚ) /
        (10 ^ ("56".data.length) : ℚ))) ∧
    load_data rawMalformedCost = DF.mk [] [] := by
  constructor
  · exact normalizer_correct_amended.1 "1 234,56" "1234".data "56".data
      (by decide) (by decide) (by decide) (by decide)
  · refine normalizer_correct_amended.2 rawMalformedCost (by decide)
      ⟨[("accommodation", "H2"), ("total price of stay", "abc")], by decide,
        ("total price of stay", "abc"), by decide, rfl, "abc", by decide⟩

theorem Row.get_cons (a : String) (v : Cell) (t : Row) (c : String) :
    Row.get ((a, v) :: t) c = if c = a then v else Row.get t c := by
  by_cases h : c = a
  · subst h
    simp [Row.get, List.lookup]
  · simp [Row.get, List.lookup, beq_eq_false_iff_ne.mpr h, h]

theorem get_coerce_ne (r : Row) (names : List String) (c : String)
    (hc : c ∉ names) :
    Row.get (r.map (fun p =>
      if p.1 ∈ names then (p.1, toNumericCell p.2) else p)) c
      = Row.get r c := by
  induction r with
  | nil => rfl
  | cons p t ih =>
      rcases p with ⟨a, v⟩
      rw [List.map_cons]
      by_cases hmem : a ∈ names
      · rw [if_pos hmem, Row.get_cons, Row.get_cons]
        by_cases hca : c = a
        · exact absurd (hca ▸ hmem) hc
        · rw [if_neg hca, if_neg hca, ih]
      · rw [if_neg hmem, Row.get_cons, Row.get_cons]
        by_cases hca : c = a
        · rw [if_pos hca, if_pos hca]
        · rw [if_neg hca, if_neg hca, ih]

/-- C7 (amended): `create_country_summary` coerces `nights`,
`total price of stay`, `id` (when ordering by id) and `person` (when
present) to numeric IN PLACE on the caller's frame, so those columns can
change; every other column — and the column list — is left exactly as it
was, and the untouched-frame guarantee holds fully on the early error
paths. -/
theorem country_summary_frame_amended (df : DF) (b : Bool) (c : String)
    (h1 : c ≠ "nights") (h2 : c ≠ "total price of stay") (h3 : c ≠ "id")
    (h4 : c ≠ "person") :
    ((create_country_summary df b).2).cols = df.cols ∧
    ((create_country_summary df b).2).rows.map (fun r => r.get c)
      = df.rows.map (fun r => r.get c) := by
  have hcn : c ∉ (["nights", "total price of stay"] ++
      (if b then ["id"] else []) ++
      (if "person" ∈ df.cols then ["person"] else [])) := by
    have hA : c ∉ (["nights", "total price of stay"] : List String) := by
      simp [h1, h2]
    have hB : c ∉ (if b then ["id"] else [] : List String) := by
      by_cases hb : b = true
      · rw [if_pos hb]
        simp [h3]
      · rw [if_neg hb]
        simp
    have hC : c ∉ (if "person" ∈ df.cols then ["person"] else []
        : List String) := by
      by_cases hp : "person" ∈ df.cols
      · rw [if_pos hp]
        simp [h4]
      · rw [if_neg hp]
        simp
    simp only [List.mem_append]
    tauto
  have hrows : (coerceCols df b).rows.map (fun r => r.get c)
      = df.rows.map (fun r => r.get c) := by
    show (df.rows.map _).map _ = _
    rw [List.map_map]
    refine List.map_congr_left ?_
    intro r hr
    exact get_coerce_ne r _ c hcn
  simp only [create_country_summary]
  by_cases hemp : df.isEmpty = true
  · rw [if_pos hemp]
    exact ⟨rfl, rfl⟩
  · rw [if_neg hemp]
    by_cases hm : ((["country", "nights", "total price of stay"] ++
        if b = true then ["id"] else []).filter
          (fun x => decide (x ∉ df.cols))).isEmpty = false
    · rw [if_pos hm]
      exact ⟨rfl, rfl⟩
    · rw [if_neg hm]
      by_cases hclean : ((coerceCols df b).rows.filter
          (fun r => !badRow r)).isEmpty = true
      · rw [if_pos hclean]
        exact ⟨rfl, hrows⟩
      · rw [if_neg hclean]
        exact ⟨rfl, hrows⟩

/-- C7 counterexample: on a frame whose `nights` column holds the
string `"abc"`, the call rewrites the caller's `nights` cell to the
missing marker — the source rows are mutated in place, beyond the
derived `destination`/`adjusted_nights` copies the claim allows. -/
theorem country_summary_mutates_input :
    (create_country_summary dfStringNights true).2 ≠ dfStringNights ∧
    ((create_country_summary dfStringNights true).2).rows.map
      (fun r => r.get "nights") = [Cell.na] ∧
    dfStringNights.rows.map (fun r => r.get "nights")
      = [Cell.str "abc"] :=
  ⟨by decide, by decide, by decide⟩

/-- C7 witness: the untouched column `country` of the mutated frame. -/
theorem country_summary_frame_amended_witness :
    ((create_country_summary dfStringNights true).2).cols
      = dfStringNights.cols ∧
    ((create_country_summary dfStringNights true).2).rows.map
      (fun r => r.get "country") = [Cell.str "France"] := by
  obtain ⟨hc1, hc2⟩ := country_summary_frame_amended dfStringNights true
    "country" (by decide) (by decide) (by decide) (by decide)
  refine ⟨hc1, ?_⟩
  rw [hc2]
  decide

theorem adjustedNights_eq_spec (hasPerson : Bool) (r : Row) :
    adjustedNights hasPerson r = specAdjNights hasPerson r := by
  rw [adjustedNights, specAdjNights]
  cases hasPerson with
  | false =>
      rw [if_neg Bool.false_ne_true,
        if_neg (fun h => Bool.false_ne_true h.1)]
  | true =>
      rw [if_pos rfl]
      cases hp : Row.get r "person" with
      | na => rw [if_neg (fun h => Cell.noConfusion h.2)]
      | str s => rw [if_neg (fun h => Cell.noConfusion h.2)]
      | date d => rw [if_neg (fun h => Cell.noConfusion h.2)]
      | num p =>
          show (if p = 1 then qdiv (cellNum (r.get "nights")) (qmk 2 1)
            else cellNum (r.get "nights")) = _
          by_cases h1 : p = 1
          · subst h1
            rw [if_pos rfl, if_pos ⟨rfl, rfl⟩, qdiv_eq, qmk_two]
          · rw [if_neg h1, if_neg (fun h => h1 (by
              have h2 := h.2
              injection h2))]

theorem orderedInsert_map {α β : Type} (f : α → β) (r : β → β → Prop)
    [DecidableRel r] (rl : α → α → Prop) [DecidableRel rl]
    (hrel : ∀ a b, r (f a) (f b) ↔ rl a b) (a : α) (l : List α) :
    List.orderedInsert r (f a) (l.map f)
      = (List.orderedInsert rl a l).map f := by
  induction l with
  | nil => rfl
  | cons b t ih =>
      rw [List.map_cons, List.orderedInsert, List.orderedInsert]
      by_cases h : rl a b
      · rw [if_pos ((hrel a b).mpr h), if_pos h, List.map_cons,
          List.map_cons]
      · rw [if_neg (fun hr => h ((hrel a b).mp hr)), if_neg h,
          List.map_cons, ih]

theorem insertionSort_map {α β : Type} (f : α → β) (r : β → β → Prop)
    [DecidableRel r] (rl : α → α → Prop) [DecidableRel rl]
    (hrel : ∀ a b, r (f a) (f b) ↔ rl a b) (l : List α) :
    List.insertionSort r (l.map f)
      = (List.insertionSort rl l).map f := by
  induction l with
  | nil => rfl
  | cons a t ih =>
      rw [List.map_cons, List.insertionSort, List.insertionSort, ih,
        orderedInsert_map f r rl hrel]

theorem find?_map_key {γ : Type} (ks : List Cell) (f : Cell → γ) (k : Cell) :
    ((ks.map (fun k2 => (k2, f k2))).find? (fun q => q.1 == k))
      = (ks.find? (fun k2 => k2 == k)).map (fun k2 => (k2, f k2)) := by
  induction ks with
  | nil => rfl
  | cons a t ih =>
      rw [List.map_cons]
      by_cases h : (a == k) = true
      · simp only [List.find?, h]
        rfl
      · have h2 : (a == k) = false := by
          rwa [Bool.not_eq_true] at h
        simp only [List.find?, h2, ih]

theorem find?_beq_self (ks : List Cell) (k : Cell) :
    ks.find? (fun x => x == k) = if k ∈ ks then some k else none := by
  induction ks with
  | nil => rfl
  | cons a t ih =>
      by_cases h : a = k
      · subst h
        simp only [List.find?, beq_self_eq_true,
          if_pos (List.mem_cons_self a t)]
      · have h2 : (a == k) = false := beq_eq_false_iff_ne.mpr h
        simp only [List.find?, h2, ih]
        by_cases hm : k ∈ t
        · rw [if_pos hm, if_pos (List.mem_cons_of_mem _ hm)]
        · rw [if_neg hm, if_neg (by
            intro hcon
            rcases List.mem_cons.mp hcon with he | hmm
            · exact h he.symm
            · exact hm hmm)]

theorem paid_lookup (hasPerson : Bool) (clean : List Row) (k : Cell) :
    ((((paidNightsTable hasPerson clean).find? (fun q => q.1 == k)).map
        Prod.snd).getD 0)
      = (((clean.filter (fun r => r.get "country" == k)).filter
          (fun r => decide (0 < cellNum (r.get "total price of stay")))).map
        (specAdjNights hasPerson)).sum := by
  rw [paidNightsTable]
  set paidRows := clean.filter
    (fun r => decide (0 < cellNum (r.get "total price of stay"))) with hPR
  set ks := List.insertionSort (fun a b => cellLeB a b = true)
    (paidRows.map (fun r => r.get "country")).dedup with hks
  rw [find?_map_key ks _ k, find?_beq_self ks k]
  by_cases hm : k ∈ ks
  · rw [if_pos hm]
    show qsum ((paidRows.filter (fun r => r.get "country" == k)).map
      (adjustedNights hasPerson)) = _
    rw [qsum_eq, hPR, List.filter_comm]
    exact congrArg _ (List.map_congr_left
      (fun r _ => adjustedNights_eq_spec hasPerson r))
  · rw [if_neg hm]
    have hempty : ((clean.filter (fun r => r.get "country" == k)).filter
        (fun r => decide (0 < cellNum (r.get "total price of stay")))) = [] := by
      refine List.filter_eq_nil.mpr ?_
      intro r hr hpaid
      rcases List.mem_filter.mp hr with ⟨hrc, hrk⟩
      apply hm
      rw [hks]
      refine ((List.perm_insertionSort _ _).mem_iff).mpr ?_
      rw [List.mem_dedup]
      refine List.mem_map.mpr ⟨r, ?_, ?_⟩
      · rw [hPR]
        exact List.mem_filter.mpr ⟨hrc, hpaid⟩
      · exact eq_of_beq hrk
    rw [hempty]
    rfl

theorem finishEntry_eq_specGroup (hasPerson : Bool) (clean : List Row)
    (k : Cell) :
    finishEntry (paidNightsTable hasPerson clean)
      (entryOf hasPerson clean k) = specGroup hasPerson clean k := by
  have hn : qsum ((clean.filter (fun r => r.get "country" == k)).map
      (adjustedNights hasPerson))
      = ((clean.filter (fun r => r.get "country" == k)).map
        (specAdjNights hasPerson)).sum := by
    rw [qsum_eq]
    exact congrArg _ (List.map_congr_left
      (fun r _ => adjustedNights_eq_spec hasPerson r))
  have hc : qsum ((clean.filter (fun r => r.get "country" == k)).map
      (fun r => cellNum (r.get "total price of stay")))
      = ((clean.filter (fun r => r.get "country" == k)).map
        (fun r => cellNum (r.get "total price of stay"))).sum := qsum_eq _
  have hp := paid_lookup hasPerson clean k
  simp only [finishEntry, specGroup, entryOf, CountryRow.mk.injEq]
  refine ⟨trivial, hn, hc, ?_, hp, ?_⟩
  · rw [qdiv_eq, qdiv_eq, qmk_two, hn, hc]
  · rw [hp]
    by_cases h0 : 0 < (((clean.filter (fun r => r.get "country" == k)).filter
        (fun r => decide (0 < cellNum (r.get "total price of stay")))).map
      (specAdjNights hasPerson)).sum
    · rw [if_pos h0, if_pos h0, qdiv_eq, qdiv_eq, qmk_two, hc]
    · rw [if_neg h0, if_neg h0]

/-- C5: whenever `create_country_summary` (ordering by id) displays a
table, its rows are exactly the spec-worded per-country summary:
person==1 nights halved, per-country sums, `total/nights/2` and the
paid-night average both rounded to 2 decimals, groups ordered by
first-seen id. -/
theorem country_summary_matches_spec (df : DF) (w1 w2 : Bool)
    (out : List CountryRow)
    (h : (create_country_summary df true).1 = CountryView.table w1 w2 out) :
    spec_country_summary df = some out := by
  simp only [create_country_summary] at h
  by_cases hemp : df.isEmpty = true
  · rw [if_pos hemp] at h
    exact absurd h (by simp)
  · rw [if_neg hemp] at h
    by_cases hm : ((["country", "nights", "total price of stay"] ++
        if True then ["id"] else []).filter
          (fun c => decide (c ∉ df.cols))).isEmpty = false
    · rw [if_pos hm] at h
      exact absurd h (by simp)
    · rw [if_neg hm] at h
      by_cases hclean : (((coerceCols df true).rows).filter
          (fun r => !badRow r)).isEmpty = true
      · rw [if_pos hclean] at h
        exact absurd h (by simp)
      · rw [if_neg hclean] at h
        injection h with hA hB hC
        have hmt : ((["country", "nights", "total price of stay"] ++
            if True then ["id"] else []).filter
              (fun c => decide (c ∉ df.cols))).isEmpty = true := by
          cases hbe : ((["country", "nights", "total price of stay"] ++
              if True then ["id"] else []).filter
                (fun c => decide (c ∉ df.cols))).isEmpty with
          | true => rfl
          | false => exact absurd hbe hm
        have hms : ∀ c ∈ (["country", "nights", "total price of stay"] ++
            if True then ["id"] else []), c ∈ df.cols := by
          intro c hc
          have hnil := List.isEmpty_iff.mp hmt
          have hpc := List.filter_eq_nil_iff.mp hnil c hc
          simpa using hpc
        have hnotor : ¬("country" ∉ df.cols ∨ "nights" ∉ df.cols ∨
            "total price of stay" ∉ df.cols ∨ "id" ∉ df.cols) := by
          push_neg
          exact ⟨hms "country" (by decide), hms "nights" (by decide),
            hms "total price of stay" (by decide), hms "id" (by decide)⟩
        simp only [spec_country_summary]
        rw [if_neg hemp, if_neg hnotor, if_neg hclean]
        simp only [eq_self_iff_true, if_true] at hC
        rw [insertionSort_map
          (entryOf (decide ("person" ∈ (coerceCols df true).cols))
            (((coerceCols df true).rows).filter (fun r => !badRow r)))
          (fun a b => fidLeB a b = true)
          (fun a b =>
            optQLeB
              (firstIdOf (((coerceCols df true).rows).filter
                (fun r => !badRow r)) a)
              (firstIdOf (((coerceCols df true).rows).filter
                (fun r => !badRow r)) b) = true)
          (fun a b => Iff.rfl) _, List.map_map] at hC
        rw [← hC]
        exact congrArg some (List.map_congr_left (fun k _ =>
          finishEntry_eq_specGroup _ _ k)).symm

theorem country_summary_matches_spec_witness :
    spec_country_summary dfScenario = some scenarioRows :=
  country_summary_matches_spec dfScenario false false scenarioRows (by decide)

theorem resolve_countries_correct_witness :
    resolve_countries geoSample = [("France", "FRA"), ("Germany", "DEU")] ∧
    country_to_iso.lookup "France" = some "FRA" ∧
    country_to_iso.lookup "francia" = none ∧
    ("francia", "FRA") ∉ resolve_countries geoSample := by
  obtain ⟨h1, h2, h3, h4, h5, h6, h7⟩ := resolve_countries_correct geoSample
  exact ⟨by decide, h1, h2, h5 "francia" "FRA" h2⟩
